import Mathlib

/-!
# Verification of the `mem` capture-and-indexing core

A shallow embedding, in Lean, of the capture pipeline of the `mem`
repository: perceptual-hash frame deduplication (`src/capture/frame.py`),
audio chunking (`src/capture/extractor.py`), transcript overlap merging
(`src/capture/text_merger.py`), non-speech classification
(`src/capture/transcriber.py`), the live-stream session manager
(`src/capture/stream_server.py` and `src/capture/pipeline.py`), the storage
layer (`src/storage/db.py`), and transcript search (`src/api/services.py`),
together with theorems checking the specification's claims against it.

Machine integers and floats are modelled as `Nat`/`ℚ`, byte strings by the
data the code extracts from them (an image by its fingerprint and decoded
dimensions), timestamps as natural numbers, and Python dictionaries as
association lists.
-/

set_option maxHeartbeats 1600000
set_option maxRecDepth 16000

namespace Mem

/-! ## Python dictionaries keyed by integers -/

/-- Python dict lookup, `d.get(k)`. -/
def lookupKey {α : Type} : List (Nat × α) → Nat → Option α
  | [], _ => none
  | (k, v) :: rest, key => if k = key then some v else lookupKey rest key

/-- Python dict update, `d[k] = v`. -/
def setKey {α : Type} : List (Nat × α) → Nat → α → List (Nat × α)
  | [], key, v => [(key, v)]
  | (k, w) :: rest, key, v =>
      if k = key then (k, v) :: rest else (k, w) :: setKey rest key v

/-- Python dict deletion, `del d[k]`.  A Python dict cannot hold duplicate
keys, so removing every pair with the key is observationally the dict's
behaviour. -/
def delKey {α : Type} (d : List (Nat × α)) (key : Nat) : List (Nat × α) :=
  d.filter (fun p => p.1 ≠ key)

theorem lookupKey_setKey_self {α : Type} (d : List (Nat × α)) (k : Nat) (v : α) :
    lookupKey (setKey d k v) k = some v := by
  induction d with
  | nil => simp [setKey, lookupKey]
  | cons p rest ih =>
      obtain ⟨k', v'⟩ := p
      by_cases h : k' = k <;> simp [setKey, lookupKey, h, ih]

theorem lookupKey_setKey_ne {α : Type} (d : List (Nat × α)) (k k' : Nat) (v : α)
    (h : k' ≠ k) : lookupKey (setKey d k v) k' = lookupKey d k' := by
  have hk : ¬ (k = k') := fun hh => h hh.symm
  induction d with
  | nil => simp [setKey, lookupKey, hk]
  | cons p rest ih =>
      obtain ⟨k₀, v₀⟩ := p
      by_cases h₀ : k₀ = k
      · subst h₀
        simp [setKey, lookupKey, hk]
      · by_cases h₁ : k₀ = k' <;> simp [setKey, lookupKey, h₀, h₁, h, ih]

theorem lookupKey_delKey_self {α : Type} (d : List (Nat × α)) (k : Nat) :
    lookupKey (delKey d k) k = none := by
  induction d with
  | nil => rfl
  | cons p rest ih =>
      obtain ⟨k₀, v₀⟩ := p
      by_cases h : k₀ = k
      · subst h
        simpa [delKey, List.filter_cons] using ih
      · simpa [delKey, List.filter_cons, h, lookupKey] using ih

theorem lookupKey_delKey_ne {α : Type} (d : List (Nat × α)) (k k' : Nat)
    (h : k' ≠ k) : lookupKey (delKey d k) k' = lookupKey d k' := by
  induction d with
  | nil => rfl
  | cons p rest ih =>
      obtain ⟨k₀, v₀⟩ := p
      by_cases h₀ : k₀ = k
      · subst h₀
        have hk : ¬ (k₀ = k') := fun hh => h hh.symm
        simpa [delKey, List.filter_cons, lookupKey, hk] using ih
      · by_cases h₁ : k₀ = k'
        · simp [delKey, List.filter_cons, h₀, h₁, lookupKey, h]
        · simpa [delKey, List.filter_cons, h₀, h₁, lookupKey] using ih

/-! ## Frame deduplicator (`src/capture/frame.py`)

A perceptual fingerprint is the flattened grid of boolean cells produced by
`imagehash.dhash` (16×16 cells for the hash size the code uses).  Similarity
only ever looks at those bits, so an image is represented here by its
fingerprint: `calculate_hash` is the identity of this embedding. -/

abbrev PHash := List Bool

/-- `h1 - h2` in imagehash: `count_nonzero(h1.hash.flatten() != h2.hash.flatten())`,
the number of differing cells of two equal-length fingerprints. -/
def hammingDist : PHash → PHash → Nat
  | [], _ => 0
  | _ :: _, [] => 0
  | a :: as, b :: bs => (if a = b then 0 else 1) + hammingDist as bs

/-- `FrameProcessor.calculate_similarity`.  The source sets
`max_distance = len(h1.hash.flatten()) * 8`, i.e. eight times the number of
boolean cells of the first fingerprint, and returns
`(1 - distance / max_distance) * 100`.  A shape mismatch makes the numpy
subtraction raise and an empty hash makes the division raise; the handler
catches both and returns `0.0`. -/
def calculate_similarity (h1 h2 : PHash) : ℚ :=
  if h1.length = h2.length ∧ h1.length ≠ 0 then
    (1 - (hammingDist h1 h2 : ℚ) / ((8 * h1.length : Nat) : ℚ)) * 100
  else 0

/-- Modelled from the spec (section 4.1): "Similarity between two fingerprints
= `(1 − hammingDistance/totalBits) × 100`", the denominator being the total
number of fingerprint bits.  Present only to exhibit how
`calculate_similarity` diverges from it (the code multiplies the denominator
by 8). -/
def similarity_per_spec (h1 h2 : PHash) : ℚ :=
  if h1.length = h2.length ∧ h1.length ≠ 0 then
    (1 - (hammingDist h1 h2 : ℚ) / (h1.length : ℚ)) * 100
  else 0

structure FrameProcessor where
  similarity_threshold : ℚ
  last_hashes : List (Nat × PHash)
deriving DecidableEq

/-- `FrameProcessor.should_store_frame`: decide whether a frame is novel
enough to store, returning `(should_store, current_hash, similarity)` and the
updated processor state. -/
def FrameProcessor.should_store_frame (fp : FrameProcessor) (source_id : Nat)
    (current_hash : PHash) : (Bool × PHash × ℚ) × FrameProcessor :=
  match lookupKey fp.last_hashes source_id with
  | none =>
      ((true, current_hash, 0),
        { fp with last_hashes := setKey fp.last_hashes source_id current_hash })
  | some last_hash =>
      let similarity := calculate_similarity current_hash last_hash
      if similarity < fp.similarity_threshold then
        ((true, current_hash, similarity),
          { fp with last_hashes := setKey fp.last_hashes source_id current_hash })
      else
        ((false, current_hash, similarity), fp)

/-- `FrameProcessor.reset_source`: clear the deduplication baseline of one
source. -/
def FrameProcessor.reset_source (fp : FrameProcessor) (source_id : Nat) :
    FrameProcessor :=
  { fp with last_hashes := delKey fp.last_hashes source_id }

/-- Decisions and similarity scores produced by feeding a sequence of frames
of one source through `should_store_frame`. -/
def runDedup (fp : FrameProcessor) (source_id : Nat) : List PHash → List (Bool × ℚ)
  | [] => []
  | h :: hs =>
      let r := fp.should_store_frame source_id h
      (r.1.1, r.1.2.2) :: runDedup r.2 source_id hs

/-- The deduplication discipline as the spec words it: the first observation
stores with similarity 0, later observations compare against the fingerprint
of the most recently *stored* frame, and the baseline moves only on a store
decision. -/
def lastStoredDecisions (thr : ℚ) : Option PHash → List PHash → List (Bool × ℚ)
  | _, [] => []
  | none, h :: hs => (true, 0) :: lastStoredDecisions thr (some h) hs
  | some b, h :: hs =>
      let s := calculate_similarity h b
      if s < thr then (true, s) :: lastStoredDecisions thr (some h) hs
      else (false, s) :: lastStoredDecisions thr (some b) hs

theorem hammingDist_le_length (h1 h2 : PHash) : hammingDist h1 h2 ≤ h1.length := by
  induction h1 generalizing h2 with
  | nil => simp [hammingDist]
  | cons a as ih =>
      cases h2 with
      | nil => simp [hammingDist]
      | cons b bs =>
          have hrec := ih bs
          by_cases hab : a = b <;> simp [hammingDist, hab] <;> omega

theorem hammingDist_append (as cs bs ds : PHash) (h : as.length = cs.length) :
    hammingDist (as ++ bs) (cs ++ ds) = hammingDist as cs + hammingDist bs ds := by
  induction as generalizing cs with
  | nil =>
      cases cs with
      | nil => simp [hammingDist]
      | cons c cs' => simp at h
  | cons a as' ih =>
      cases cs with
      | nil => simp at h
      | cons c cs' =>
          simp only [List.length_cons, Nat.add_right_cancel_iff] at h
          simp [hammingDist, ih cs' h, Nat.add_assoc]

theorem hammingDist_replicate (n : Nat) (a b : Bool) :
    hammingDist (List.replicate n a) (List.replicate n b)
      = if a = b then 0 else n := by
  induction n with
  | zero => by_cases hab : a = b <;> simp [hammingDist]
  | succ m ih =>
      by_cases hab : a = b
      · subst hab
        simp [List.replicate_succ, hammingDist, ih]
      · simp [List.replicate_succ, hammingDist, ih, hab, Nat.add_comm]

theorem runDedup_eq_lastStored (sid : Nat) (hs : List PHash) (fp : FrameProcessor) :
    runDedup fp sid hs
      = lastStoredDecisions fp.similarity_threshold (lookupKey fp.last_hashes sid) hs := by
  induction hs generalizing fp with
  | nil => cases lookupKey fp.last_hashes sid <;> rfl
  | cons h rest ih =>
      cases hb : lookupKey fp.last_hashes sid with
      | none =>
          simp only [runDedup, FrameProcessor.should_store_frame, hb,
            lastStoredDecisions]
          rw [ih]
          simp [lookupKey_setKey_self]
      | some b =>
          simp only [runDedup, FrameProcessor.should_store_frame, hb,
            lastStoredDecisions]
          by_cases hlt : calculate_similarity h b < fp.similarity_threshold
          · rw [if_pos hlt, if_pos hlt, ih]
            simp [lookupKey_setKey_self]
          · rw [if_neg hlt, if_neg hlt, ih]
            simp [hb]

/-- **C1** (code_bug).  The deduplication discipline itself is implemented as
claimed: iterating `should_store_frame` from a fresh processor produces
exactly the last-stored-baseline decision trace (fourth conjunct, which also
gives `(true, 0)` for the first observation).  But the claimed concrete
scenario is unreachable: `calculate_similarity` divides the Hamming distance
by `8 * len(bits)` instead of `len(bits)`, contradicting its own comment
("maximum possible distance") and the spec formula.  At the failing input —
256-bit fingerprints differing in 154 of 256 cells — the code returns
23675/256 ≈ 92.48 where the spec formula gives 1275/32 ≈ 39.84 (the
scenario's "40"); in fact every similarity the code can return is either 0 or
at least 87.5, so a similarity of 40 never occurs. -/
theorem C1_dedup_baseline_and_similarity_scale :
    calculate_similarity (List.replicate 154 true ++ List.replicate 102 false)
        (List.replicate 256 false) = 23675/256
  ∧ similarity_per_spec (List.replicate 154 true ++ List.replicate 102 false)
        (List.replicate 256 false) = 1275/32
  ∧ (∀ h1 h2 : PHash,
      calculate_similarity h1 h2 = 0 ∨ (175/2 : ℚ) ≤ calculate_similarity h1 h2)
  ∧ (∀ (thr : ℚ) (sid : Nat) (hs : List PHash),
      runDedup ⟨thr, []⟩ sid hs = lastStoredDecisions thr none hs) := by
  have hdist : hammingDist (List.replicate 154 true ++ List.replicate 102 false)
      (List.replicate 256 false) = 154 := by
    have h256 : (256 : Nat) = 154 + 102 := by norm_num
    rw [h256, List.replicate_add,
      hammingDist_append _ _ _ _ (by simp), hammingDist_replicate,
      hammingDist_replicate]
    norm_num
  have hcond : (List.replicate 154 true ++ List.replicate 102 false).length
        = (List.replicate 256 false).length
      ∧ (List.replicate 154 true ++ List.replicate 102 false).length ≠ 0 := by
    simp
  refine ⟨?_, ?_, ?_, ?_⟩
  · unfold calculate_similarity
    rw [if_pos hcond, hdist]
    norm_num
  · unfold similarity_per_spec
    rw [if_pos hcond, hdist]
    norm_num
  · intro h1 h2
    unfold calculate_similarity
    by_cases hc : h1.length = h2.length ∧ h1.length ≠ 0
    · right
      rw [if_pos hc]
      have hn : 0 < (h1.length : ℚ) := by
        exact_mod_cast Nat.pos_of_ne_zero hc.2
      have hd : (hammingDist h1 h2 : ℚ) ≤ (h1.length : ℚ) := by
        exact_mod_cast hammingDist_le_length h1 h2
      have h8 : (0 : ℚ) < ((8 * h1.length : Nat) : ℚ) := by
        push_cast
        linarith
      have hfrac : (hammingDist h1 h2 : ℚ) / ((8 * h1.length : Nat) : ℚ) ≤ 1/8 := by
        rw [div_le_div_iff₀ h8 (by norm_num)]
        push_cast
        linarith
      linarith
    · left
      rw [if_neg hc]
  · intro thr sid hs
    simpa using runDedup_eq_lastStored sid hs ⟨thr, []⟩

/-! ## Audio chunking (`src/capture/extractor.py`, `get_audio_chunks`)

The generator walks the WAV file in frames: `chunk_frames = rate * chunk_duration`,
`overlap_frames = rate * overlap_seconds`, step `chunk_frames - overlap_frames`
(falling back to `chunk_frames` when the difference is not positive), yielding
`[start_frame, min(start_frame + chunk_frames, total_frames))` windows until
`start_frame ≥ total_frames`.  The embedding keeps frame counts; the yielded
`*_seconds` values are these counts divided by the (positive) sample rate, and
`overlap_seconds > 0` iff `overlap_frames > 0`. -/

structure Chunk where
  index : Nat
  start_frame : Nat
  end_frame : Nat
  has_overlap : Bool
  overlap_start : Option Nat
  overlap_end : Option Nat
deriving DecidableEq

/-- Step between chunk starts: `chunk_frames - overlap_frames`, or
`chunk_frames` if that is not positive. -/
def chunkStep (chunk_frames overlap_frames : Nat) : Nat :=
  if chunk_frames - overlap_frames = 0 then chunk_frames
  else chunk_frames - overlap_frames

/-- The `while start_frame < total_frames` loop of `get_audio_chunks`.  The
`fuel` argument only bounds the number of iterations so that the recursion is
structural; since the step is positive and the loop runs at most `total`
times, a fuel of `total` is never exhausted (each lemma below assumes
`total - start ≤ fuel`, which the entry point establishes). -/
def audioChunksFrom (total chunkF overlapF step : Nat) :
    Nat → Nat → Nat → List Chunk
  | 0, _, _ => []
  | fuel + 1, start, idx =>
      if start < total then
        let endF := min (start + chunkF) total
        let before : Bool := decide (0 < idx) && decide (0 < overlapF)
        let after : Bool := decide (endF < total) && decide (0 < overlapF)
        { index := idx, start_frame := start, end_frame := endF,
          has_overlap := before || after,
          overlap_start := if before then some start else none,
          overlap_end := if after then some (endF - overlapF) else none }
          :: audioChunksFrom total chunkF overlapF step fuel (start + step) (idx + 1)
      else []

/-- `get_audio_chunks`, split into chunks with optional overlap.  When
`chunk_frames = 0` (so the computed step is 0) the source loop would not
terminate for a non-empty file; the embedding returns `[]` in that degenerate
case, which no claim exercises. -/
def get_audio_chunks (total_frames chunk_frames overlap_frames : Nat) : List Chunk :=
  if 0 < chunkStep chunk_frames overlap_frames then
    audioChunksFrom total_frames chunk_frames overlap_frames
      (chunkStep chunk_frames overlap_frames) total_frames 0 0
  else []

theorem chunkStep_le (chunkF overlapF : Nat) : chunkStep chunkF overlapF ≤ chunkF := by
  unfold chunkStep
  split <;> omega

theorem audioChunksFrom_map_index (total chunkF overlapF step : Nat)
    (hstep : 0 < step) :
    ∀ (fuel start idx : Nat), total - start ≤ fuel →
      (audioChunksFrom total chunkF overlapF step fuel start idx).map Chunk.index
        = List.range' idx
            (audioChunksFrom total chunkF overlapF step fuel start idx).length := by
  intro fuel
  induction fuel with
  | zero =>
      intro start idx _
      simp [audioChunksFrom]
  | succ m ih =>
      intro start idx hn
      by_cases h : start < total
      · simp only [audioChunksFrom, h, if_true, List.map_cons, List.length_cons,
          List.range'_succ]
        congr 1
        exact ih (start + step) (idx + 1) (by omega)
      · simp [audioChunksFrom, h]

theorem audioChunksFrom_mem_bounds (total chunkF overlapF step : Nat)
    (hchunk : 0 < chunkF) :
    ∀ (fuel start idx : Nat),
      ∀ c ∈ audioChunksFrom total chunkF overlapF step fuel start idx,
        c.start_frame < c.end_frame ∧ c.end_frame ≤ total := by
  intro fuel
  induction fuel with
  | zero =>
      intro start idx c hc
      simp [audioChunksFrom] at hc
  | succ m ih =>
      intro start idx c hc
      by_cases h : start < total
      · simp only [audioChunksFrom, h, if_true, List.mem_cons] at hc
        rcases hc with rfl | hc
        · constructor
          · simp
            omega
          · simp
        · exact ih (start + step) (idx + 1) c hc
      · simp [audioChunksFrom, h] at hc

theorem audioChunksFrom_cover (total chunkF overlapF step : Nat)
    (hstep : 0 < step) (hchunk : step ≤ chunkF) :
    ∀ (fuel start idx f : Nat), total - start ≤ fuel → start ≤ f → f < total →
      ∃ c ∈ audioChunksFrom total chunkF overlapF step fuel start idx,
        c.start_frame ≤ f ∧ f < c.end_frame := by
  intro fuel
  induction fuel with
  | zero =>
      intro start idx f hn hsf hf
      omega
  | succ m ih =>
      intro start idx f hn hsf hf
      have h : start < total := by omega
      simp only [audioChunksFrom, h, if_true]
      by_cases hcov : f < min (start + chunkF) total
      · exact ⟨_, List.mem_cons_self _ _, by simpa using hsf, by simpa using hcov⟩
      · have hge : start + chunkF ≤ f := by omega
        obtain ⟨c, hc, hle, hlt⟩ :=
          ih (start + step) (idx + 1) f (by omega) (by omega) hf
        exact ⟨c, List.mem_cons_of_mem _ hc, hle, hlt⟩

theorem audioChunksFrom_last (total chunkF overlapF step : Nat)
    (hstep : 0 < step) (hchunk : step ≤ chunkF) :
    ∀ (fuel start idx : Nat), total - start ≤ fuel → start < total →
      ∃ c, (audioChunksFrom total chunkF overlapF step fuel start idx).getLast?
            = some c ∧ c.end_frame = total := by
  intro fuel
  induction fuel with
  | zero =>
      intro start idx hn h
      omega
  | succ m ih =>
      intro start idx hn h
      simp only [audioChunksFrom, h, if_true]
      by_cases h2 : start + step < total
      · obtain ⟨c, hc, hce⟩ := ih (start + step) (idx + 1) (by omega) h2
        refine ⟨c, ?_, hce⟩
        cases hl : audioChunksFrom total chunkF overlapF step m (start + step)
            (idx + 1) with
        | nil => rw [hl] at hc; simp at hc
        | cons a l =>
            rw [hl] at hc
            rw [List.getLast?_cons_cons]
            exact hc
      · have hempty : audioChunksFrom total chunkF overlapF step m
            (start + step) (idx + 1) = [] := by
          cases m with
          | zero => rfl
          | succ m' => simp [audioChunksFrom, h2]
        rw [hempty]
        refine ⟨_, rfl, ?_⟩
        simp
        omega

theorem audioChunksFrom_overlap_marks (total chunkF overlapF step : Nat)
    (hov : 0 < overlapF) :
    ∀ (fuel start idx : Nat),
      ∀ c ∈ audioChunksFrom total chunkF overlapF step fuel start idx,
        (0 < c.index → c.overlap_start = some c.start_frame ∧ c.has_overlap = true)
        ∧ (c.index = 0 → c.overlap_start = none) := by
  intro fuel
  induction fuel with
  | zero =>
      intro start idx c hc
      simp [audioChunksFrom] at hc
  | succ m ih =>
      intro start idx c hc
      by_cases h : start < total
      · simp only [audioChunksFrom, h, if_true, List.mem_cons] at hc
        rcases hc with rfl | hc
        · constructor
          · intro hpos
            have hidx : 0 < idx := by simpa using hpos
            simp [hidx, hov]
          · intro h0
            have hidx : idx = 0 := by simpa using h0
            simp [hidx]
        · exact ih (start + step) (idx + 1) c hc
      · simp [audioChunksFrom, h] at hc

/-- **C5** (confirmed).  With `0 < overlap < chunk` (in frames), the chunk
list is indexed `0, 1, 2, …` in order; a frame position is below the stream
length iff some chunk's span contains it (so the spans cover exactly
`[0, total)`); the final chunk ends exactly at the stream length (truncated,
not padded); every chunk except the first is marked as overlapping its
predecessor (`overlap_start` populated, `has_overlap` set) and the first is
not; and a 10-second stream at 16 kHz with 5-second chunks and 1-second
overlap yields exactly the spans `[0s–5s], [4s–9s], [8s–10s]`. -/
theorem C5_audio_chunk_spans (total chunkF overlapF : Nat)
    (hov : 0 < overlapF) (hlt : overlapF < chunkF) :
    ((get_audio_chunks total chunkF overlapF).map Chunk.index
        = List.range (get_audio_chunks total chunkF overlapF).length)
  ∧ (∀ f : Nat, f < total ↔ ∃ c ∈ get_audio_chunks total chunkF overlapF,
        c.start_frame ≤ f ∧ f < c.end_frame)
  ∧ (0 < total → ∃ c, (get_audio_chunks total chunkF overlapF).getLast? = some c
        ∧ c.end_frame = total)
  ∧ (∀ c ∈ get_audio_chunks total chunkF overlapF,
        (0 < c.index → c.overlap_start = some c.start_frame ∧ c.has_overlap = true)
        ∧ (c.index = 0 → c.overlap_start = none))
  ∧ get_audio_chunks 160000 80000 16000
      = [⟨0, 0, 80000, true, none, some 64000⟩,
         ⟨1, 64000, 144000, true, some 64000, some 128000⟩,
         ⟨2, 128000, 160000, true, some 128000, none⟩] := by
  have hstep : 0 < chunkStep chunkF overlapF := by
    unfold chunkStep
    split <;> omega
  have hchunk : 0 < chunkF := by omega
  have hstep_le := chunkStep_le chunkF overlapF
  refine ⟨?_, ?_, ?_, ?_, by decide⟩
  · unfold get_audio_chunks
    rw [if_pos hstep, List.range_eq_range']
    exact audioChunksFrom_map_index total chunkF overlapF _ hstep total 0 0
      (by omega)
  · intro f
    constructor
    · intro hf
      unfold get_audio_chunks
      rw [if_pos hstep]
      exact audioChunksFrom_cover total chunkF overlapF _ hstep hstep_le
        total 0 0 f (by omega) (by omega) hf
    · intro ⟨c, hc, _, hlt2⟩
      unfold get_audio_chunks at hc
      rw [if_pos hstep] at hc
      have := audioChunksFrom_mem_bounds total chunkF overlapF _ hchunk
        total 0 0 c hc
      omega
  · intro htot
    unfold get_audio_chunks
    rw [if_pos hstep]
    exact audioChunksFrom_last total chunkF overlapF _ hstep hstep_le
      total 0 0 (by omega) htot
  · intro c hc
    unfold get_audio_chunks at hc
    rw [if_pos hstep] at hc
    exact audioChunksFrom_overlap_marks total chunkF overlapF _ hov
      total 0 0 c hc

/-! ## Transcript overlap merging (`src/capture/text_merger.py`)

Texts are modelled by their whitespace-token lists (`str.split()`), the
granularity at which the source works: `find_overlap` scans word positions
and converts the winner back to the character offset of that word in the
single-space join, and `merge_overlapping_texts` splits and re-joins on
whitespace before returning.  So a text is a `List String` of words and an
overlap position is a word index. -/

abbrev Words := List String

/-- Python's `str.lower()` as used by the word comparisons: lower-case every
character (the character list of the string, so that it evaluates). -/
def pyLower (s : String) : List Char := s.data.map Char.toLower

/-- Longest case-insensitive common prefix length of two word lists: the
inner matching loop of `find_overlap` and the `common_len` loop of
`merge_overlapping_texts`. -/
def matchLen : Words → Words → Nat
  | [], _ => 0
  | _ :: _, [] => 0
  | a :: as, b :: bs => if pyLower a = pyLower b then 1 + matchLen as bs else 0

/-- The `for start_idx in range(len(words1) - 2)` scan of `find_overlap`:
fold over candidate start positions keeping the best `(position, length)`
match.  A candidate replaces the best when it matches at least 3 words,
strictly more than the current best, and covers at least `minRatio` of the
candidate overlap window `min(len(words2), len(words1) - start_idx)`. -/
def scanStep (words1 words2 : Words) (minRatio : ℚ) (start : Nat)
    (best : Option (Nat × Nat)) : Option (Nat × Nat) :=
  let mlen := matchLen (words1.drop start) words2
  let possible := min words2.length (words1.length - start)
  let bestLen := (best.map Prod.snd).getD 0
  if 3 ≤ mlen ∧ bestLen < mlen ∧ minRatio ≤ (mlen : ℚ) / (possible : ℚ) then
    some (start, mlen)
  else best

def findOverlapScan (words1 words2 : Words) (minRatio : ℚ) :
    List Nat → Option (Nat × Nat) → Option (Nat × Nat)
  | [], best => best
  | start :: rest, best =>
      findOverlapScan words1 words2 minRatio rest
        (scanStep words1 words2 minRatio start best)

/-- `find_overlap`: word position in `text1` where `text2` begins repeating
it, or `none`.  Empty or shorter-than-3-word texts never match. -/
def find_overlap (text1 text2 : Words) (minRatio : ℚ) : Option Nat :=
  if text1.length < 3 ∨ text2.length < 3 then none
  else
    (findOverlapScan text1 text2 minRatio
        (List.range (text1.length - 2)) none).map Prod.fst

/-- The fragment-accumulating loop of `merge_overlapping_texts`: walks the
remaining `(text, confidence)` pairs carrying the current fragment and its
confidence and emitting finished parts in order. -/
def mergeLoop (minRatio : ℚ) (current : Words) (curConf : ℚ) :
    List (Words × ℚ) → List Words
  | [] => [current]
  | (next, nextConf) :: rest =>
      match find_overlap current next minRatio with
      | some k =>
          let overlapInCurrent := current.drop k
          let newCurrent :=
            if curConf < nextConf then next
            else
              let commonLen := matchLen overlapInCurrent next
              if 0 < commonLen then overlapInCurrent ++ next.drop commonLen
              else next
          (if 0 < k then [current.take k] else [])
            ++ mergeLoop minRatio newCurrent (max curConf nextConf) rest
      | none => current :: mergeLoop minRatio next nextConf rest

/-- `merge_overlapping_texts`: merge chronologically ordered, possibly
overlapping fragments into one deduplicated text. -/
def merge_overlapping_texts (texts : List (Words × ℚ)) (minRatio : ℚ) : Words :=
  match texts with
  | [] => []
  | (t, c) :: rest => (mergeLoop minRatio t c rest).flatten

theorem matchLen_le_left (xs ys : Words) : matchLen xs ys ≤ xs.length := by
  induction xs generalizing ys with
  | nil => simp [matchLen]
  | cons a as ih =>
      cases ys with
      | nil => simp [matchLen]
      | cons b bs =>
          by_cases h : pyLower a = pyLower b <;> simp [matchLen, h]
          have := ih bs
          omega

theorem matchLen_self_append (b c : Words) : matchLen b (b ++ c) = b.length := by
  induction b with
  | nil => simp [matchLen]
  | cons x xs ih =>
      simp [matchLen, ih]
      omega

/-- The scan never lowers the recorded best length, and a scan over positions
that cannot beat `B` preserves the invariant "no best yet, or best length
below `B`". -/
theorem findOverlapScan_below (w1 w2 : Words) (minRatio : ℚ) (B : Nat) :
    ∀ (l : List Nat) (best : Option (Nat × Nat)),
      (∀ j ∈ l, matchLen (w1.drop j) w2 < B) →
      (best = none ∨ ((best.map Prod.snd).getD 0) < B) →
      (findOverlapScan w1 w2 minRatio l best = none
        ∨ (((findOverlapScan w1 w2 minRatio l best).map Prod.snd).getD 0) < B) := by
  intro l
  induction l with
  | nil =>
      intro best _ hbest
      simpa [findOverlapScan] using hbest
  | cons j rest ih =>
      intro best hl hbest
      simp only [findOverlapScan]
      refine ih _ (fun i hi => hl i (List.mem_cons_of_mem _ hi)) ?_
      simp only [scanStep]
      split
      · exact Or.inr (by simpa using hl j (List.mem_cons_self _ _))
      · exact hbest

/-- Once the best match is at least as long as every remaining candidate, the
scan leaves it unchanged. -/
theorem findOverlapScan_fixed (w1 w2 : Words) (minRatio : ℚ) :
    ∀ (l : List Nat) (p : Nat × Nat),
      (∀ j ∈ l, matchLen (w1.drop j) w2 ≤ p.2) →
      findOverlapScan w1 w2 minRatio l (some p) = some p := by
  intro l
  induction l with
  | nil =>
      intro p _
      rfl
  | cons j rest ih =>
      intro p hl
      have hj : matchLen (w1.drop j) w2 ≤ p.2 := hl j (List.mem_cons_self _ _)
      have hstep : scanStep w1 w2 minRatio j (some p) = some p := by
        simp only [scanStep]
        exact if_neg fun hcond => absurd hcond.2.1 (Nat.not_lt.mpr hj)
      simp only [findOverlapScan, hstep]
      exact ih p (fun i hi => hl i (List.mem_cons_of_mem _ hi))

theorem findOverlapScan_append (w1 w2 : Words) (minRatio : ℚ) :
    ∀ (l1 l2 : List Nat) (best : Option (Nat × Nat)),
      findOverlapScan w1 w2 minRatio (l1 ++ l2) best
        = findOverlapScan w1 w2 minRatio l2
            (findOverlapScan w1 w2 minRatio l1 best) := by
  intro l1
  induction l1 with
  | nil => intro l2 best; rfl
  | cons j rest ih =>
      intro l2 best
      simp only [List.cons_append, findOverlapScan]
      exact ih l2 _

/-- On a pair of fragments sharing a genuine word-aligned boundary `b` of at
least 3 words — `words1 = a ++ b`, `words2 = b ++ c`, with no earlier start
position matching at least `|b|` words — `find_overlap` returns exactly the
boundary's word position. -/
theorem find_overlap_boundary (a b c : Words) (minRatio : ℚ)
    (hb3 : 3 ≤ b.length) (hratio : minRatio ≤ 1)
    (hgen : ∀ j < a.length, matchLen ((a ++ b).drop j) (b ++ c) < b.length) :
    find_overlap (a ++ b) (b ++ c) minRatio = some a.length := by
  have hlen1 : (a ++ b).length = a.length + b.length := List.length_append a b
  have hlen2 : (b ++ c).length = b.length + c.length := List.length_append b c
  have hnot : ¬ ((a ++ b).length < 3 ∨ (b ++ c).length < 3) := by
    rw [hlen1, hlen2]
    omega
  unfold find_overlap
  rw [if_neg hnot]
  have hsplitr : List.range ((a ++ b).length - 2)
      = List.range' 0 a.length ++ (a.length :: List.range' (a.length + 1) (b.length - 3)) := by
    rw [List.range_eq_range']
    have h1 : (a ++ b).length - 2 = (b.length - 2) + a.length := by
      rw [hlen1]; omega
    rw [h1, ← List.range'_append_1 0 a.length (b.length - 2)]
    congr 1
    rw [Nat.zero_add]
    have h2 : (b.length - 2) = (b.length - 3) + 1 := by omega
    rw [h2, List.range'_succ]
  rw [hsplitr, findOverlapScan_append]
  set best1 := findOverlapScan (a ++ b) (b ++ c) minRatio (List.range' 0 a.length) none
    with hbest1
  have hP : best1 = none ∨ ((best1.map Prod.snd).getD 0) < b.length := by
    rw [hbest1]
    refine findOverlapScan_below (a ++ b) (b ++ c) minRatio b.length _ none ?_
      (Or.inl rfl)
    intro j hj
    have : j < a.length := by
      have := List.mem_range'_1.mp hj
      omega
    exact hgen j this
  have hdropa : (a ++ b).drop a.length = b := List.drop_left a b
  have hmlen : matchLen ((a ++ b).drop a.length) (b ++ c) = b.length := by
    rw [hdropa]
    exact matchLen_self_append b c
  have hstep2 : scanStep (a ++ b) (b ++ c) minRatio a.length best1
      = some (a.length, b.length) := by
    simp only [scanStep, hmlen]
    rw [if_pos]
    refine ⟨hb3, ?_, ?_⟩
    · rcases hP with h | h
      · simp [h]
        omega
      · exact h
    · have hposs : min (b ++ c).length ((a ++ b).length - a.length) = b.length := by
        rw [hlen1, hlen2]
        omega
      rw [hposs]
      have hbpos : (0 : ℚ) < (b.length : ℚ) := by
        exact_mod_cast by omega
      rw [div_self (ne_of_gt hbpos)]
      exact hratio
  simp only [findOverlapScan, hstep2]
  have hfix : findOverlapScan (a ++ b) (b ++ c) minRatio
      (List.range' (a.length + 1) (b.length - 3)) (some (a.length, b.length))
      = some (a.length, b.length) := by
    refine findOverlapScan_fixed (a ++ b) (b ++ c) minRatio _ _ ?_
    intro j hj
    have hjr := List.mem_range'_1.mp hj
    have hle := matchLen_le_left ((a ++ b).drop j) (b ++ c)
    have hdl : ((a ++ b).drop j).length = (a ++ b).length - j :=
      List.length_drop j (a ++ b)
    simp only [hdl, hlen1] at hle
    simp only
    omega
  rw [hfix]
  rfl

/-- **C6** (confirmed).  For a chronologically ordered pair of fragments that
share a genuine word-aligned boundary of at least 3 words (the boundary match
covers 100% ≥ 80% of its candidate overlap window, and no earlier position
matches as long), the merge emits the boundary text exactly once:
the output is `a ++ b ++ c`.  For a pair with no match at all, the output is
the plain concatenation with nothing excluded. -/
theorem C6_merge_boundary_once (a b c : Words) (c1 c2 : ℚ)
    (hb3 : 3 ≤ b.length)
    (hgen : ∀ j < a.length, matchLen ((a ++ b).drop j) (b ++ c) < b.length) :
    merge_overlapping_texts [(a ++ b, c1), (b ++ c, c2)] (4/5) = a ++ (b ++ c)
  ∧ (∀ (w1 w2 : Words) (d1 d2 : ℚ),
      find_overlap w1 w2 (4/5) = none →
        merge_overlapping_texts [(w1, d1), (w2, d2)] (4/5) = w1 ++ w2) := by
  constructor
  · have hfo : find_overlap (a ++ b) (b ++ c) (4/5) = some a.length :=
      find_overlap_boundary a b c (4/5) hb3 (by norm_num) hgen
    have hdropa : (a ++ b).drop a.length = b := List.drop_left a b
    have hdropb : (b ++ c).drop b.length = c := List.drop_left b c
    have htakea : (a ++ b).take a.length = a := List.take_left a b
    have hnewcur :
        (if c1 < c2 then b ++ c
         else
           if 0 < matchLen ((a ++ b).drop a.length) (b ++ c) then
             ((a ++ b).drop a.length)
               ++ (b ++ c).drop (matchLen ((a ++ b).drop a.length) (b ++ c))
           else b ++ c) = b ++ c := by
      by_cases hcc : c1 < c2
      · rw [if_pos hcc]
      · rw [if_neg hcc, hdropa, matchLen_self_append, if_pos (by omega), hdropb]
    simp only [merge_overlapping_texts, mergeLoop, hfo]
    rw [hnewcur]
    by_cases ha : 0 < a.length
    · rw [if_pos ha, htakea]
      simp
    · have ha0 : a = [] := by
        cases a with
        | nil => rfl
        | cons x xs => simp at ha
      rw [if_neg ha]
      simp [ha0]
  · intro w1 w2 d1 d2 hnone
    simp only [merge_overlapping_texts, mergeLoop, hnone]
    simp

/-- Witness for C6: a genuine 3-word boundary (`brown fox jumps`) shared by
two fragments is emitted once, and a pair with no overlap concatenates. -/
theorem C6_merge_boundary_once_witness :
    merge_overlapping_texts
        [(["the", "quick", "brown", "fox", "jumps"], 9/10),
         (["brown", "fox", "jumps", "over"], 4/5)] (4/5)
      = ["the", "quick", "brown", "fox", "jumps", "over"]
  ∧ merge_overlapping_texts [(["a", "b", "c"], 1), (["d", "e", "f"], 1)] (4/5)
      = ["a", "b", "c", "d", "e", "f"] := by
  have h := C6_merge_boundary_once ["the", "quick"] ["brown", "fox", "jumps"]
    ["over"] (9/10) (4/5) (by decide) (by decide)
  have hm : matchLen ["a", "b", "c"] ["d", "e", "f"] = 0 := by decide
  have hnone : find_overlap ["a", "b", "c"] ["d", "e", "f"] (4/5) = none := by
    simp [find_overlap, findOverlapScan, scanStep, hm, List.range_succ]
  exact ⟨h.1, h.2 ["a", "b", "c"] ["d", "e", "f"] 1 1 hnone⟩

/-! ## Non-speech classification (`src/capture/transcriber.py`)

A transcription segment dictionary is modelled by the fields the classifier
reads; optional keys are `Option` with the source's `.get` defaults applied
at the use site.  `result["text"]` is stripped by `detect_non_speech_audio`
before use; blankness and the substring/word checks are unaffected by
stripping (the patterns contain no edge whitespace and `split()` ignores it),
so the embedding keeps the unstripped text and tests blankness directly. -/

structure TSegment where
  text : String
  no_speech_prob : Option ℚ
  avg_logprob : Option ℚ
  compression_ratio : Option ℚ

structure SpeechAnalysis where
  is_non_speech : Bool
  no_speech_ratio : ℚ
  low_confidence_ratio : ℚ
  empty_text_ratio : ℚ
  high_compression_count : Nat
  short_segments_count : Nat

/-- `text.strip()` is empty, i.e. the text is all whitespace. -/
def isBlank (s : String) : Bool := s.data.all (fun ch => ch.isWhitespace)

/-- Python `str.split()`: the maximal runs of non-whitespace characters. -/
def splitWs (s : List Char) : List (List Char) :=
  match s with
  | [] => []
  | c :: cs =>
      if c.isWhitespace then splitWs cs
      else (c :: cs.takeWhile (fun d => !d.isWhitespace))
             :: splitWs (cs.dropWhile (fun d => !d.isWhitespace))
termination_by s.length
decreasing_by
  · simp
  · have : (cs.dropWhile (fun d => !d.isWhitespace)).length ≤ cs.length :=
      (List.dropWhile_sublist _).length_le
    simp
    omega

/-- Python's substring test `pat in s`: `pat` occurs as a contiguous run of
`s`. -/
def containsSub (pat : List Char) : List Char → Bool
  | [] => pat.isEmpty
  | c :: rest => pat.isPrefixOf (c :: rest) || containsSub pat rest

/-- `Transcriber.analyze_segments_for_speech`: per-segment counters and the
non-speech decision.  For zero segments the source returns a bare
`is_non_speech: True` marker dictionary; its other keys are absent and never
read on that path, modelled by zeroes. -/
def analyze_segments_for_speech (segments : List TSegment) : SpeechAnalysis :=
  if segments.length = 0 then ⟨true, 0, 0, 0, 0, 0⟩
  else
    let total : Nat := segments.length
    let no_speech_count : Nat :=
      segments.countP (fun s => decide ((s.no_speech_prob.getD 0) > 3/5))
    let low_confidence_count : Nat :=
      segments.countP (fun s =>
        match s.avg_logprob with
        | some lp => decide (lp < -1)
        | none => false)
    let high_compression_count : Nat :=
      segments.countP (fun s => decide ((s.compression_ratio.getD 1) > 5/2))
    let empty_text_count : Nat := segments.countP (fun s => isBlank s.text)
    let short_segments_count : Nat :=
      segments.countP (fun s =>
        !isBlank s.text && decide ((splitWs s.text.data).length < 3))
    { is_non_speech :=
        decide ((no_speech_count : ℚ) / (total : ℚ) > 1/2)
        || decide ((low_confidence_count : ℚ) / (total : ℚ) > 3/5)
        || decide ((empty_text_count : ℚ) / (total : ℚ) > 7/10)
        || decide ((high_compression_count : ℚ) > (total : ℚ) * (1/2)),
      no_speech_ratio := (no_speech_count : ℚ) / (total : ℚ),
      low_confidence_ratio := (low_confidence_count : ℚ) / (total : ℚ),
      empty_text_ratio := (empty_text_count : ℚ) / (total : ℚ),
      high_compression_count := high_compression_count,
      short_segments_count := short_segments_count }

/-- `Transcriber.classify_non_speech_type`: pick the bracketed marker from
keyword matches in the (discarded) text and from which ratio dominated. -/
def classify_non_speech_type (analysis : SpeechAnalysis) (text : String) :
    String :=
  let text_lower := pyLower text
  if ["♪", "♫", "music", "singing", "song"].any
      (fun p => containsSub p.data text_lower) then "[Music]"
  else if ["applause", "clapping", "cheering"].any
      (fun p => containsSub p.data text_lower) then "[Applause]"
  else if ["laughter", "laughing", "haha"].any
      (fun p => containsSub p.data text_lower) then "[Laughter]"
  else if analysis.empty_text_ratio > 4/5 then "[Silence]"
  else if analysis.no_speech_ratio > 7/10 then "[Background Noise]"
  else if 3 < analysis.high_compression_count then "[Music]"
  else "[Non-Speech Audio]"

/-- `Transcriber.detect_non_speech_patterns`: bracketed marker from common
non-speech transcription patterns, or `""` when none applies. -/
def detect_non_speech_patterns (text : String) : String :=
  if isBlank text then "[Silence]"
  else
    let text_lower := pyLower text
    if ["♪", "♫", "[music]", "(music)", "[singing]", "[instrumental]"].any
        (fun p => containsSub p.data text_lower) then "[Music]"
    else if ["[applause]", "(applause)", "[clapping]", "(clapping)"].any
        (fun p => containsSub p.data text_lower) then "[Applause]"
    else if ["[laughter]", "(laughter)", "[laughing]", "haha", "hehe"].any
        (fun p => containsSub p.data text_lower) then "[Laughter]"
    else if ["[noise]", "(noise)", "[static]", "[wind]"].any
        (fun p => containsSub p.data text_lower) then "[Background Noise]"
    else if ["[silence]", "(silence)", "[pause]"].any
        (fun p => containsSub p.data text_lower) then "[Silence]"
    else
      let words := splitWs text_lower
      if words.isEmpty then ""
      else
        let uniq := words.dedup
        if (3 < words.length
              ∧ (uniq.length : ℚ) < (words.length : ℚ) * (3/10))
            ∧ (uniq.all (fun w => decide (w.length ≤ 4))
               || uniq.all (fun w => containsSub ['%'] w)) then
          "[Repetitive Audio]"
        else if words.all (fun w =>
            ["la", "na", "da", "oh", "ah", "mm", "uh"].any
              (fun p => p.data = w)) then "[Music]"
        else ""

/-- `Transcriber.detect_non_speech_audio`: returns
`(is_non_speech, marker)`. -/
def detect_non_speech_audio (segments : List TSegment) (text : String) :
    Bool × String :=
  if segments.length ≠ 0
      ∧ (analyze_segments_for_speech segments).is_non_speech = true then
    (true, classify_non_speech_type (analyze_segments_for_speech segments) text)
  else
    let pattern_type := detect_non_speech_patterns text
    if pattern_type ≠ "" then (true, pattern_type)
    else (false, "")

structure TranscribeResult where
  text : String
  is_non_speech : Bool
  audio_type : Option String

/-- The tail of `Transcriber.transcribe_audio`: once the segment list and the
combined text are built, either replace the text by the non-speech marker or
return the literal transcript. -/
def transcribe_audio_result (segments : List TSegment) (combined_text : String) :
    TranscribeResult :=
  let d := detect_non_speech_audio segments combined_text
  if d.1 then { text := d.2, is_non_speech := true, audio_type := some d.2 }
  else { text := combined_text, is_non_speech := false, audio_type := none }

/-- The seven bracketed markers named by the spec. -/
def nonSpeechMarkers : List String :=
  ["[Music]", "[Applause]", "[Laughter]", "[Silence]", "[Background Noise]",
   "[Repetitive Audio]", "[Non-Speech Audio]"]

theorem classify_non_speech_type_mem (a : SpeechAnalysis) (t : String) :
    classify_non_speech_type a t ∈ nonSpeechMarkers := by
  simp only [classify_non_speech_type]
  split_ifs <;> simp [nonSpeechMarkers]

theorem detect_non_speech_patterns_mem (t : String) :
    detect_non_speech_patterns t = ""
      ∨ detect_non_speech_patterns t ∈ nonSpeechMarkers := by
  simp only [detect_non_speech_patterns]
  split_ifs <;> simp [nonSpeechMarkers]

/-- **C7** (confirmed).  For a chunk with at least one transcription segment:
whenever the no-speech ratio exceeds 0.5, or the low-confidence ratio exceeds
0.6, or the empty-text ratio exceeds 0.7, or the high-compression segment
count exceeds half the segment count, the chunk is classified non-speech; and
whenever a chunk is classified non-speech, the text returned for storage is
one of the seven bracketed markers, never the literal transcript. -/
theorem C7_non_speech_markers (segments : List TSegment) (combined : String)
    (hne : segments ≠ []) :
    ((analyze_segments_for_speech segments).no_speech_ratio > 1/2
      ∨ (analyze_segments_for_speech segments).low_confidence_ratio > 3/5
      ∨ (analyze_segments_for_speech segments).empty_text_ratio > 7/10
      ∨ ((analyze_segments_for_speech segments).high_compression_count : ℚ)
          > (segments.length : ℚ) * (1/2)
      → (transcribe_audio_result segments combined).is_non_speech = true)
  ∧ ((transcribe_audio_result segments combined).is_non_speech = true
      → (transcribe_audio_result segments combined).text ∈ nonSpeechMarkers) := by
  have hlen : ¬ segments.length = 0 := by
    simpa using hne
  constructor
  · intro hdisj
    have hana : (analyze_segments_for_speech segments).is_non_speech = true := by
      unfold analyze_segments_for_speech at hdisj ⊢
      rw [if_neg hlen] at hdisj ⊢
      simp only [decide_eq_true_eq, Bool.or_eq_true]
      rcases hdisj with h | h | h | h
      · exact Or.inl (Or.inl (Or.inl (by exact_mod_cast h)))
      · exact Or.inl (Or.inl (Or.inr (by exact_mod_cast h)))
      · exact Or.inl (Or.inr (by exact_mod_cast h))
      · exact Or.inr (by exact_mod_cast h)
    have hcond : segments.length ≠ 0
        ∧ (analyze_segments_for_speech segments).is_non_speech = true :=
      ⟨hlen, hana⟩
    have hdet : detect_non_speech_audio segments combined
        = (true, classify_non_speech_type
            (analyze_segments_for_speech segments) combined) := by
      unfold detect_non_speech_audio
      exact if_pos hcond
    simp [transcribe_audio_result, hdet]
  · intro hcls
    by_cases hcond : segments.length ≠ 0
        ∧ (analyze_segments_for_speech segments).is_non_speech = true
    · have hdet : detect_non_speech_audio segments combined
          = (true, classify_non_speech_type
              (analyze_segments_for_speech segments) combined) := by
        unfold detect_non_speech_audio
        exact if_pos hcond
      simp only [transcribe_audio_result, hdet, if_true]
      exact classify_non_speech_type_mem
        (analyze_segments_for_speech segments) combined
    · rcases detect_non_speech_patterns_mem combined with hp | hp
      · have hdet : detect_non_speech_audio segments combined = (false, "") := by
          unfold detect_non_speech_audio
          rw [if_neg hcond]
          simp [hp]
        simp [transcribe_audio_result, hdet] at hcls
      · have hne2 : detect_non_speech_patterns combined ≠ "" := by
          intro h0
          rw [h0] at hp
          simp [nonSpeechMarkers] at hp
        have hdet : detect_non_speech_audio segments combined
            = (true, detect_non_speech_patterns combined) := by
          unfold detect_non_speech_audio
          rw [if_neg hcond]
          simp [hne2]
        simp only [transcribe_audio_result, hdet, if_true]
        exact hp

/-- Witness for C7: a single segment flagged as certainly-no-speech is
classified non-speech and stored as a bracketed marker. -/
theorem C7_non_speech_markers_witness :
    (transcribe_audio_result [⟨"", some 1, none, none⟩] "").is_non_speech = true
  ∧ (transcribe_audio_result [⟨"", some 1, none, none⟩] "").text
      ∈ nonSpeechMarkers := by
  have h := C7_non_speech_markers [⟨"", some 1, none, none⟩] "" (by simp)
  have h32 : ((1 : ℚ)) > 3/5 := by norm_num
  have hratio : (analyze_segments_for_speech
      [⟨"", some 1, none, none⟩]).no_speech_ratio > 1/2 := by
    simp [analyze_segments_for_speech, h32]
    norm_num
  have h1 := h.1 (Or.inl hratio)
  exact ⟨h1, h.2 h1⟩

/-! ## Transcript search (`src/api/services.py`, `search_transcripts`)

The stored `transcriptions` table is a list of rows; the query
`WHERE LOWER(text) LIKE LOWER('%' || q || '%') ORDER BY start_timestamp DESC
LIMIT l OFFSET o` is modelled by SQL `LIKE` semantics (`%` matches any run,
`_` exactly one character), a stable sort by descending start timestamp, and
`drop`/`take`; the separate `COUNT(*)` query shares the `WHERE` clause. -/

structure TranscriptionRow where
  transcription_id : Nat
  source_id : Nat
  start_timestamp : Nat
  end_timestamp : Nat
  text : String
  confidence : ℚ
  language : String
deriving DecidableEq

/-- SQL `LIKE` pattern matching over characters. -/
def likeMatch : List Char → List Char → Bool
  | [], [] => true
  | [], _ :: _ => false
  | '%' :: ps, s =>
      likeMatch ps s
        || (match s with
            | [] => false
            | _ :: s' => likeMatch ('%' :: ps) s')
  | '_' :: ps, s =>
      (match s with
        | [] => false
        | _ :: s' => likeMatch ps s')
  | p :: ps, s =>
      (match s with
        | [] => false
        | c :: s' => (p = c) && likeMatch ps s')
termination_by p s => (s.length, p.length)

/-- Rows ordered by `start_timestamp DESC` (ties keep stored order, one of
the orders SQL may return). -/
def sortByStartDesc (rows : List TranscriptionRow) : List TranscriptionRow :=
  rows.mergeSort (fun r1 r2 => r2.start_timestamp ≤ r1.start_timestamp)

structure SearchResult where
  transcripts : List TranscriptionRow
  total_count : Nat
deriving DecidableEq

/-- `SearchService.search_transcripts`.  `source_id` follows Python
truthiness: the filter is only applied when the value is present and
non-zero. -/
def search_transcripts (rows : List TranscriptionRow) (query : String)
    (source_id : Option Nat) (limit offset : Nat) : SearchResult :=
  let pat := pyLower ("%" ++ query ++ "%")
  let keep : TranscriptionRow → Bool := fun r =>
    likeMatch pat (pyLower r.text)
      && (match source_id with
          | some sid => if sid ≠ 0 then decide (r.source_id = sid) else true
          | none => true)
  let matchedRows := rows.filter keep
  { transcripts := ((sortByStartDesc matchedRows).drop offset).take limit,
    total_count := matchedRows.length }

theorem likeMatch_percent_iff (ps : List Char) :
    ∀ s : List Char,
      likeMatch ('%' :: ps) s = true
        ↔ ∃ s1 s2, s = s1 ++ s2 ∧ likeMatch ps s2 = true := by
  intro s
  induction s with
  | nil =>
      rw [likeMatch]
      simp only [Bool.or_false]
      constructor
      · intro h
        exact ⟨[], [], rfl, h⟩
      · intro ⟨s1, s2, hsplit, h⟩
        obtain ⟨h1, h2⟩ := List.append_eq_nil.mp hsplit.symm
        subst h1
        subst h2
        exact h
  | cons c s' ih =>
      rw [likeMatch]
      simp only [Bool.or_eq_true]
      constructor
      · intro h
        rcases h with h | h
        · exact ⟨[], c :: s', rfl, h⟩
        · obtain ⟨s1, s2, hsplit, hm⟩ := ih.mp h
          exact ⟨c :: s1, s2, by simp [hsplit], hm⟩
      · intro ⟨s1, s2, hsplit, hm⟩
        cases s1 with
        | nil =>
            simp at hsplit
            subst hsplit
            exact Or.inl hm
        | cons d s1' =>
            simp at hsplit
            obtain ⟨hd, hrest⟩ := hsplit
            exact Or.inr (ih.mpr ⟨s1', s2, hrest, hm⟩)

theorem likeMatch_literal_head (q : List Char)
    (hq : ∀ c ∈ q, c ≠ '%' ∧ c ≠ '_') (ps : List Char) :
    ∀ s : List Char,
      likeMatch (q ++ ps) s = true
        ↔ ∃ s2, s = q ++ s2 ∧ likeMatch ps s2 = true := by
  induction q with
  | nil =>
      intro s
      simp
  | cons p q' ih =>
      intro s
      have hp := hq p (List.mem_cons_self _ _)
      have hq' : ∀ c ∈ q', c ≠ '%' ∧ c ≠ '_' :=
        fun c hc => hq c (List.mem_cons_of_mem _ hc)
      cases s with
      | nil =>
          constructor
          · intro h
            rw [List.cons_append] at h
            rw [likeMatch] at h
            · simp at h
            · exact hp.1
            · exact hp.2
          · intro ⟨s2, hsplit, _⟩
            simp at hsplit
      | cons c s' =>
          rw [List.cons_append, likeMatch]
          · constructor
            · intro h
              simp only [Bool.and_eq_true, decide_eq_true_eq] at h
              obtain ⟨rfl, hrest⟩ := h
              obtain ⟨s2, hsp, hm⟩ := (ih hq' s').mp hrest
              exact ⟨s2, by simp [hsp], hm⟩
            · intro ⟨s2, hsplit, hm⟩
              simp only [List.cons_append, List.cons.injEq] at hsplit
              obtain ⟨rfl, hrest⟩ := hsplit
              simp only [Bool.and_eq_true, decide_eq_true_eq]
              exact ⟨by simp, (ih hq' s').mpr ⟨s2, hrest, hm⟩⟩
          · exact hp.1
          · exact hp.2

theorem likeMatch_single_percent (s : List Char) :
    likeMatch ['%'] s = true := by
  induction s with
  | nil =>
      rw [likeMatch]
      simp [likeMatch]
  | cons c s' ih =>
      rw [likeMatch]
      simp [ih]

theorem containsSub_iff_exists (q : List Char) :
    ∀ s : List Char,
      containsSub q s = true ↔ ∃ s1 s2, s = s1 ++ q ++ s2 := by
  intro s
  induction s with
  | nil =>
      simp only [containsSub, List.isEmpty_iff]
      constructor
      · intro h
        exact ⟨[], [], by simp [h]⟩
      · intro ⟨s1, s2, hsplit⟩
        cases s1 <;> cases q <;> simp_all
  | cons c s' ih =>
      simp only [containsSub, Bool.or_eq_true]
      constructor
      · intro h
        rcases h with h | h
        · obtain ⟨t, ht⟩ := List.isPrefixOf_iff_prefix.mp h
          exact ⟨[], t, by simp [← ht]⟩
        · obtain ⟨s1, s2, hsplit⟩ := ih.mp h
          exact ⟨c :: s1, s2, by simp [hsplit]⟩
      · intro ⟨s1, s2, hsplit⟩
        cases s1 with
        | nil =>
            left
            apply List.isPrefixOf_iff_prefix.mpr
            exact ⟨s2, by simp [hsplit]⟩
        | cons d s1' =>
            right
            apply ih.mpr
            simp only [List.cons_append, List.cons.injEq] at hsplit
            exact ⟨s1', s2, hsplit.2⟩

/-- For a pattern `%q%` whose core `q` holds no wildcard, SQL `LIKE` is
exactly substring containment. -/
theorem likeMatch_substring (q : List Char)
    (hq : ∀ c ∈ q, c ≠ '%' ∧ c ≠ '_') (s : List Char) :
    likeMatch ('%' :: (q ++ ['%'])) s = containsSub q s := by
  have hiff : likeMatch ('%' :: (q ++ ['%'])) s = true ↔ containsSub q s = true := by
    rw [likeMatch_percent_iff]
    constructor
    · intro ⟨s1, s2, hsplit, hm⟩
      obtain ⟨s3, hsp2, _⟩ := (likeMatch_literal_head q hq ['%'] s2).mp hm
      exact (containsSub_iff_exists q s).mpr ⟨s1, s3, by simp [hsplit, hsp2]⟩
    · intro h
      obtain ⟨s1, s2, hsplit⟩ := (containsSub_iff_exists q s).mp h
      refine ⟨s1, q ++ s2, by simpa using hsplit, ?_⟩
      exact (likeMatch_literal_head q hq ['%'] (q ++ s2)).mpr
        ⟨s2, rfl, likeMatch_single_percent s2⟩
  cases h1 : likeMatch ('%' :: (q ++ ['%'])) s <;>
    cases h2 : containsSub q s <;> simp_all

/-- **C9** (corrected, amended part).  For a query containing no SQL `LIKE`
wildcard (`%` or `_`; lower-casing fixes both), transcript search returns
exactly the stored transcriptions whose text contains the query as a
case-insensitive substring, ordered by descending start timestamp and
paginated by offset/limit, and the reported total is the number of all
matching rows, independent of the requested page. -/
theorem C9_search_substring (rows : List TranscriptionRow) (query : String)
    (limit offset : Nat)
    (hq : ∀ c ∈ pyLower query, c ≠ '%' ∧ c ≠ '_') :
    (search_transcripts rows query none limit offset).transcripts
        = ((sortByStartDesc (rows.filter
              (fun r => containsSub (pyLower query) (pyLower r.text)))).drop
            offset).take limit
  ∧ (search_transcripts rows query none limit offset).total_count
        = (rows.filter
            (fun r => containsSub (pyLower query) (pyLower r.text))).length := by
  have hpc : Char.toLower '%' = '%' := by decide
  have hpat : pyLower ("%" ++ query ++ "%")
      = '%' :: (pyLower query ++ ['%']) := by
    have h1 : ("%" ++ query ++ "%").data = '%' :: (query.data ++ ['%']) := by
      rw [String.data_append, String.data_append]
      rfl
    simp [pyLower, h1, hpc]
  have hfilter : (rows.filter (fun r =>
        likeMatch (pyLower ("%" ++ query ++ "%")) (pyLower r.text)
          && (match (none : Option Nat) with
              | some sid => if sid ≠ 0 then decide (r.source_id = sid) else true
              | none => true)))
      = rows.filter (fun r => containsSub (pyLower query) (pyLower r.text)) := by
    apply List.filter_congr
    intro r _
    rw [hpat, likeMatch_substring (pyLower query) hq (pyLower r.text)]
    simp
  constructor
  · simp only [search_transcripts, hfilter]
  · simp only [search_transcripts, hfilter]

/-- Witness for C9's amended theorem at a concrete store and query. -/
theorem C9_search_substring_witness :
    (search_transcripts [(⟨1, 1, 0, 10, "aBc", 1, "en"⟩ : TranscriptionRow)]
        "b" none 10 0).transcripts
        = ((sortByStartDesc
            ([(⟨1, 1, 0, 10, "aBc", 1, "en"⟩ : TranscriptionRow)].filter
              (fun r => containsSub (pyLower "b") (pyLower r.text)))).drop
            0).take 10
  ∧ (search_transcripts [(⟨1, 1, 0, 10, "aBc", 1, "en"⟩ : TranscriptionRow)]
        "b" none 10 0).total_count
        = ([(⟨1, 1, 0, 10, "aBc", 1, "en"⟩ : TranscriptionRow)].filter
            (fun r => containsSub (pyLower "b") (pyLower r.text))).length :=
  C9_search_substring _ "b" 10 0 (by decide)

/-- **C9** (counterexample).  With one stored transcription `"abc"` and the
query `"%"`, the search returns the row even though `"%"` is not a substring
of `"abc"`: wildcards in the query string are interpreted by `LIKE`, so for
such queries the result set is not the set of substring matches the claim
describes. -/
theorem C9_counterexample_wildcard :
    (search_transcripts [(⟨1, 1, 0, 10, "abc", 1, "en"⟩ : TranscriptionRow)]
        "%" none 100 0).transcripts
        = [(⟨1, 1, 0, 10, "abc", 1, "en"⟩ : TranscriptionRow)]
  ∧ containsSub (pyLower "%") (pyLower "abc") = false := by
  constructor
  · have hpat : pyLower "%%%" = '%' :: ['%', '%'] := by decide
    have hall : likeMatch (pyLower "%%%") (pyLower "abc") = true := by
      rw [hpat]
      refine (likeMatch_percent_iff ['%', '%'] (pyLower "abc")).mpr
        ⟨pyLower "abc", [], by simp, ?_⟩
      exact (likeMatch_percent_iff ['%'] []).mpr
        ⟨[], [], rfl, likeMatch_single_percent []⟩
    simp [search_transcripts, sortByStartDesc, List.mergeSort, hall]
  · decide

/-! ## Store, capture pipeline and stream sessions
(`src/storage/db.py`, `src/capture/pipeline.py`, `src/capture/stream_server.py`)

Timestamps are naturals; generated UUIDs are naturals supplied by the caller
(the operations' freshness assumptions become hypotheses); the metadata JSON
blob is carried as an opaque string. -/

structure SourceRow where
  source_type : String
  filename : String
  start_timestamp : Nat
  end_timestamp : Option Nat
  meta : String
deriving DecidableEq

structure FrameRow where
  source_id : Nat
  first_seen_timestamp : Nat
  last_seen_timestamp : Nat
  perceptual_hash : PHash
deriving DecidableEq

structure TimelineRow where
  source_id : Nat
  timestamp : Nat
  frame_id : Option Nat
  similarity_score : ℚ
deriving DecidableEq

/-- The tables of `Database` that the stream path touches, with the
sequences generating fresh primary keys. -/
structure Store where
  sources : List (Nat × SourceRow)
  next_source_id : Nat
  frames : List (Nat × FrameRow)
  next_frame_id : Nat
  timeline : List TimelineRow
deriving DecidableEq

/-- `Database.create_source`: insert and return the generated id. -/
def Store.create_source (st : Store) (src : SourceRow) : Nat × Store :=
  (st.next_source_id,
   { st with sources := setKey st.sources st.next_source_id src,
             next_source_id := st.next_source_id + 1 })

/-- `Database.update_source_end`: the SQL sets only `end_timestamp`; the
`duration` argument is accepted and never written (the `sources` schema has
no duration column).  An `UPDATE` matching no row is a no-op. -/
def Store.update_source_end (st : Store) (source_id : Nat)
    (end_timestamp : Nat) (duration : Nat) : Store :=
  { st with sources :=
      match lookupKey st.sources source_id with
      | some row =>
          setKey st.sources source_id { row with end_timestamp := some end_timestamp }
      | none => st.sources }

/-- `Database.store_frame`: insert and return the generated id. -/
def Store.store_frame (st : Store) (f : FrameRow) : Nat × Store :=
  (st.next_frame_id,
   { st with frames := setKey st.frames st.next_frame_id f,
             next_frame_id := st.next_frame_id + 1 })

/-- `Database.find_similar_frame`: `SELECT frame_id FROM frames WHERE
source_id = ? AND perceptual_hash = ? LIMIT 1`. -/
def Store.find_similar_frame (st : Store) (source_id : Nat) (ph : PHash) :
    Option Nat :=
  (st.frames.find? (fun p =>
    decide (p.2.source_id = source_id ∧ p.2.perceptual_hash = ph))).map Prod.fst

/-- `Database.update_frame_last_seen`. -/
def Store.update_frame_last_seen (st : Store) (frame_id ts : Nat) : Store :=
  { st with frames :=
      match lookupKey st.frames frame_id with
      | some row => setKey st.frames frame_id { row with last_seen_timestamp := ts }
      | none => st.frames }

/-- `Database.create_timeline_entry` (append-only). -/
def Store.create_timeline_entry (st : Store) (row : TimelineRow) : Store :=
  { st with timeline := st.timeline ++ [row] }

/-- `Database.get_source`. -/
def Store.get_source (st : Store) (source_id : Nat) : Option SourceRow :=
  lookupKey st.sources source_id

/-- A frame payload, represented by what the code extracts from the bytes:
decoded dimensions plus the perceptual fingerprint, or `none` when PIL
cannot parse the bytes. -/
structure FrameData where
  width : Nat
  height : Nat
  phash : PHash
deriving DecidableEq

/-- `StreamCaptureProcessor`: its deduplicator and stream bookkeeping (the
database handle is the shared `Store`, passed explicitly). -/
structure StreamCaptureProcessor where
  frame_processor : FrameProcessor
  active : Bool
  source_id : Option Nat
deriving DecidableEq

/-- `StreamCaptureProcessor.start_stream`: create the backing Source record
and activate. -/
def StreamCaptureProcessor.start_stream (proc : StreamCaptureProcessor)
    (st : Store) (now : Nat) : Nat × StreamCaptureProcessor × Store :=
  let src : SourceRow :=
    { source_type := "stream", filename := "stream_" ++ toString now,
      start_timestamp := now, end_timestamp := none, meta := "rtmp" }
  let (sid, st') := st.create_source src
  (sid, { proc with active := true, source_id := some sid }, st')

/-- `StreamCaptureProcessor.capture_frame`: raises when the stream is not
active (Python truthiness also rejects a zero source id); an undecodable
frame is logged and dropped with no store write; otherwise the frame goes
through the deduplicator and the store, and a timeline entry is appended. -/
def StreamCaptureProcessor.capture_frame (proc : StreamCaptureProcessor)
    (st : Store) (frame : Option FrameData) (now : Nat) :
    Except String (StreamCaptureProcessor × Store) :=
  match proc.source_id, proc.active with
  | some sid, true =>
      if sid = 0 then Except.error "Stream not active"
      else
        match frame with
        | none => Except.ok (proc, st)
        | some fd =>
            let r := proc.frame_processor.should_store_frame sid fd.phash
            let proc' := { proc with frame_processor := r.2 }
            if r.1.1 then
              let (fid, st') := st.store_frame
                { source_id := sid, first_seen_timestamp := now,
                  last_seen_timestamp := now, perceptual_hash := r.1.2.1 }
              Except.ok (proc', st'.create_timeline_entry
                { source_id := sid, timestamp := now, frame_id := some fid,
                  similarity_score := r.1.2.2 })
            else
              match st.find_similar_frame sid r.1.2.1 with
              | some fid =>
                  Except.ok (proc',
                    (st.update_frame_last_seen fid now).create_timeline_entry
                      { source_id := sid, timestamp := now,
                        frame_id := some fid, similarity_score := r.1.2.2 })
              | none =>
                  Except.ok (proc', st.create_timeline_entry
                    { source_id := sid, timestamp := now, frame_id := none,
                      similarity_score := r.1.2.2 })
  | _, _ => Except.error "Stream not active"

/-- `StreamCaptureProcessor.stop_stream`: when active on a source, set the
Source's end timestamp (the computed duration is passed to
`update_source_end`, which discards it), reset the deduplication baseline
for that source, and deactivate. -/
def StreamCaptureProcessor.stop_stream (proc : StreamCaptureProcessor)
    (st : Store) (now : Nat) : StreamCaptureProcessor × Store :=
  match proc.source_id, proc.active with
  | some sid, true =>
      if sid = 0 then (proc, st)
      else
        match st.get_source sid with
        | some src =>
            let duration := now - src.start_timestamp
            let st' := st.update_source_end sid now duration
            ({ proc with
                frame_processor := proc.frame_processor.reset_source sid,
                active := false, source_id := none }, st')
        | none =>
            ({ proc with active := false, source_id := none }, st)
  | _, _ => (proc, st)

inductive SessionStatus
  | waiting
  | live
  | ended
  | error
deriving DecidableEq

structure StreamSession where
  session_id : Nat
  stream_key : Nat
  stream_name : Option String
  source_id : Option Nat
  processor : Option StreamCaptureProcessor
  status : SessionStatus
  started_at : Option Nat
  ended_at : Option Nat
  client_addr : Option String
  width : Option Nat
  height : Option Nat
  frames_received : Nat
  frames_stored : Nat
deriving DecidableEq

/-- The `RTMPServer` session registry together with the shared store. -/
structure SystemState where
  max_streams : Nat
  similarity_threshold : ℚ
  sessions : List (Nat × StreamSession)
  store : Store
deriving DecidableEq

/-- `RTMPServer.create_session`: capacity check against the whole session
dictionary, then a fresh `waiting` session under a fresh key (the two ids
stand for the generated UUIDs). -/
def create_session (st : SystemState) (session_id stream_key : Nat)
    (stream_name : Option String) :
    Except String (StreamSession × SystemState) :=
  if st.sessions.length ≥ st.max_streams then
    Except.error "Maximum streams reached"
  else
    let session : StreamSession :=
      { session_id := session_id, stream_key := stream_key,
        stream_name := stream_name, source_id := none, processor := none,
        status := .waiting, started_at := none, ended_at := none,
        client_addr := none, width := none, height := none,
        frames_received := 0, frames_stored := 0 }
    Except.ok (session,
      { st with sessions := setKey st.sessions stream_key session })

/-- `RTMPServer.on_publish`: reject an unknown key; reject a session that is
neither `waiting` nor `ended`; otherwise build a fresh processor and its
backing source and go `live` (counters and measured resolution reset).
`start_ok` models whether `start_stream` raises; on failure the session is
marked `error` (the exception is modelled as occurring before the store
write). -/
def on_publish (st : SystemState) (stream_key : Nat) (client_addr : String)
    (start_ok : Bool) (now : Nat) : Bool × SystemState :=
  match lookupKey st.sessions stream_key with
  | none => (false, st)
  | some session =>
      if session.status ≠ .waiting ∧ session.status ≠ .ended then (false, st)
      else if start_ok then
        let proc0 : StreamCaptureProcessor :=
          { frame_processor :=
              { similarity_threshold := st.similarity_threshold,
                last_hashes := [] },
            active := false, source_id := none }
        let r := proc0.start_stream st.store now
        let session' := { session with
          processor := some r.2.1, source_id := some r.1, status := .live,
          started_at := some now, client_addr := some client_addr,
          frames_received := 0, frames_stored := 0,
          width := none, height := none }
        (true, { st with sessions := setKey st.sessions stream_key session',
                         store := r.2.2 })
      else
        let session' := { session with status := .error }
        (false, { st with sessions := setKey st.sessions stream_key session' })

/-- `RTMPServer.on_publish_done`: unknown key is rejected; otherwise stop
the processor when present and mark the session `ended` — the current status
is not checked. -/
def on_publish_done (st : SystemState) (stream_key : Nat) (now : Nat) :
    Bool × SystemState :=
  match lookupKey st.sessions stream_key with
  | none => (false, st)
  | some session =>
      let store' :=
        match session.processor with
        | some proc => (proc.stop_stream st.store now).2
        | none => st.store
      let session' := { session with
        status := .ended, ended_at := some now, processor := none }
      (true, { st with
        sessions := setKey st.sessions stream_key session', store := store' })

/-- `RTMPServer.ingest_frame`: reject unknown keys, non-`live` sessions and
missing processors before any mutation; then count the frame as received,
run it through `capture_frame` (an exception yields `False` with the receive
counter already advanced), count it as stored, and measure the resolution on
the first decodable frame. -/
def ingest_frame (st : SystemState) (stream_key : Nat)
    (frame : Option FrameData) (now : Nat) : Bool × SystemState :=
  match lookupKey st.sessions stream_key with
  | none => (false, st)
  | some session =>
      if session.status ≠ .live then (false, st)
      else
        match session.processor with
        | none => (false, st)
        | some proc =>
            let session₁ :=
              { session with frames_received := session.frames_received + 1 }
            match proc.capture_frame st.store frame now with
            | Except.error _ =>
                (false, { st with
                  sessions := setKey st.sessions stream_key session₁ })
            | Except.ok r =>
                let session₂ := { session₁ with
                  frames_stored := session₁.frames_stored + 1,
                  processor := some r.1 }
                let session₃ :=
                  match session₂.width, frame with
                  | none, some fd =>
                      { session₂ with width := some fd.width,
                                      height := some fd.height }
                  | _, _ => session₂
                (true, { st with
                  sessions := setKey st.sessions stream_key session₃,
                  store := r.2 })

/-- `RTMPServer.stop_stream`: `False` only for an unknown key; a `live`
session's processor is stopped and the session marked `ended`; any other
status is left untouched. -/
def stop_stream (st : SystemState) (stream_key : Nat) (now : Nat) :
    Bool × SystemState :=
  match lookupKey st.sessions stream_key with
  | none => (false, st)
  | some session =>
      if session.status = .live then
        let store' :=
          match session.processor with
          | some proc => (proc.stop_stream st.store now).2
          | none => st.store
        let session' := { session with
          status := .ended, ended_at := some now, processor := none }
        (true, { st with
          sessions := setKey st.sessions stream_key session',
          store := store' })
      else (true, st)

/-- `RTMPServer.delete_session`: stop if needed, then remove the entry. -/
def delete_session (st : SystemState) (stream_key : Nat) (now : Nat) :
    Bool × SystemState :=
  match lookupKey st.sessions stream_key with
  | none => (false, st)
  | some _ =>
      let st' := (stop_stream st stream_key now).2
      (true, { st' with sessions := delKey st'.sessions stream_key })

/-- One external event of the session manager: an API call, an nginx
callback, or a posted frame. -/
inductive Op
  | createSession (session_id stream_key : Nat) (name : Option String)
  | onPublish (stream_key : Nat) (client_addr : String) (start_ok : Bool)
      (now : Nat)
  | onPublishDone (stream_key : Nat) (now : Nat)
  | ingestFrame (stream_key : Nat) (frame : Option FrameData) (now : Nat)
  | stopStream (stream_key : Nat) (now : Nat)
  | deleteSession (stream_key : Nat) (now : Nat)

/-- The session manager as a step function over `SystemState`. -/
def step (st : SystemState) : Op → Bool × SystemState
  | .createSession sid key name =>
      match create_session st sid key name with
      | .ok r => (true, r.2)
      | .error _ => (false, st)
  | .onPublish key addr ok now => on_publish st key addr ok now
  | .onPublishDone key now => on_publish_done st key now
  | .ingestFrame key f now => ingest_frame st key f now
  | .stopStream key now => stop_stream st key now
  | .deleteSession key now => delete_session st key now

theorem setKey_fresh {α : Type} (d : List (Nat × α)) (k : Nat) (v : α)
    (h : lookupKey d k = none) : setKey d k v = d ++ [(k, v)] := by
  induction d with
  | nil => rfl
  | cons p rest ih =>
      obtain ⟨k₀, v₀⟩ := p
      by_cases h₀ : k₀ = k
      · simp [lookupKey, h₀] at h
      · simp only [lookupKey, h₀, if_false] at h
        simp [setKey, h₀, ih h]

/-- **C3** (confirmed).  `on_publish` with a stream key that is not
registered rejects the publish attempt and returns the state unchanged: no
session is created, no backing Source is opened, and every existing session
is untouched, whatever the client address. -/
theorem C3_unknown_key_rejected (st : SystemState) (stream_key : Nat)
    (client_addr : String) (start_ok : Bool) (now : Nat)
    (h : lookupKey st.sessions stream_key = none) :
    on_publish st stream_key client_addr start_ok now = (false, st) := by
  unfold on_publish
  rw [h]

/-- Witness for C3 at a server with no registered sessions. -/
theorem C3_unknown_key_rejected_witness :
    lookupKey (⟨10, 95, [], ⟨[], 1, [], 1, []⟩⟩ : SystemState).sessions 5 = none
  ∧ on_publish ⟨10, 95, [], ⟨[], 1, [], 1, []⟩⟩ 5 "10.0.0.1" true 0
      = (false, ⟨10, 95, [], ⟨[], 1, [], 1, []⟩⟩) :=
  ⟨rfl, C3_unknown_key_rejected ⟨10, 95, [], ⟨[], 1, [], 1, []⟩⟩ 5 "10.0.0.1"
    true 0 rfl⟩

/-- A session already in the `ended` state, as a concrete fixture. -/
def endedFixture : StreamSession :=
  ⟨1, 7, none, none, none, .ended, none, none, none, none, none, 0, 0⟩

/-- **C4** (counterexample).  With `max_streams = 1` and a single session in
state `ended`, `create_session` fails with the capacity error although the
number of sessions in `waiting` or `live` states is 0, below the maximum of
1: the capacity check counts every session in the dictionary, whatever its
state. -/
theorem C4_counterexample_capacity :
    create_session ⟨1, 95, [(7, endedFixture)], ⟨[], 1, [], 1, []⟩⟩ 2 9 none
        = Except.error "Maximum streams reached"
  ∧ List.countP (fun p => decide (p.2.status = SessionStatus.waiting
        ∨ p.2.status = SessionStatus.live)) [(7, endedFixture)] = 0
  ∧ 0 < (1 : Nat) :=
  ⟨rfl, by decide, by decide⟩

/-- **C4** (corrected, amended part).  With a fresh stream key (standing for
the generated UUID), `create_session` fails with the capacity error iff the
total number of registered sessions — regardless of status — has reached
`max_streams`; below that it returns a new `waiting` session with zeroed
counters registered under the fresh key, grows the registry by exactly one,
and leaves every other session and the store untouched. -/
theorem C4_capacity_counts_all_sessions (st : SystemState)
    (session_id stream_key : Nat) (name : Option String)
    (hfresh : lookupKey st.sessions stream_key = none) :
    (st.sessions.length ≥ st.max_streams ↔
      create_session st session_id stream_key name
        = Except.error "Maximum streams reached")
  ∧ (st.sessions.length < st.max_streams →
      ∃ sess st', create_session st session_id stream_key name
          = Except.ok (sess, st')
        ∧ sess.status = .waiting
        ∧ sess.stream_key = stream_key
        ∧ sess.frames_received = 0 ∧ sess.frames_stored = 0
        ∧ lookupKey st'.sessions stream_key = some sess
        ∧ st'.sessions.length = st.sessions.length + 1
        ∧ (∀ k, k ≠ stream_key →
            lookupKey st'.sessions k = lookupKey st.sessions k)
        ∧ st'.store = st.store) := by
  constructor
  · constructor
    · intro h
      unfold create_session
      rw [if_pos h]
    · intro h
      by_contra hlt
      unfold create_session at h
      rw [if_neg hlt] at h
      simp at h
  · intro hlt
    simp only [create_session]
    rw [if_neg (by omega)]
    refine ⟨_, _, rfl, rfl, rfl, rfl, rfl, ?_, ?_, ?_, rfl⟩
    · exact lookupKey_setKey_self _ _ _
    · show (setKey st.sessions stream_key _).length = _
      rw [setKey_fresh st.sessions stream_key _ hfresh]
      simp
    · intro k hk
      exact lookupKey_setKey_ne _ _ _ _ hk

/-- Witness for C4's amended theorem at an empty two-slot server. -/
theorem C4_capacity_counts_all_sessions_witness :
    ∃ sess st', create_session ⟨2, 95, [], ⟨[], 1, [], 1, []⟩⟩ 1 5 none
        = Except.ok (sess, st')
      ∧ sess.status = .waiting
      ∧ sess.stream_key = 5
      ∧ sess.frames_received = 0 ∧ sess.frames_stored = 0
      ∧ lookupKey st'.sessions 5 = some sess
      ∧ st'.sessions.length
          = (⟨2, 95, [], ⟨[], 1, [], 1, []⟩⟩ : SystemState).sessions.length + 1
      ∧ (∀ k, k ≠ 5 → lookupKey st'.sessions k
          = lookupKey (⟨2, 95, [], ⟨[], 1, [], 1, []⟩⟩ : SystemState).sessions k)
      ∧ st'.store = (⟨2, 95, [], ⟨[], 1, [], 1, []⟩⟩ : SystemState).store :=
  (C4_capacity_counts_all_sessions ⟨2, 95, [], ⟨[], 1, [], 1, []⟩⟩ 1 5 none
    rfl).2 (by decide)

/-- **C8** (counterexample).  `update_source_end` is handed the computed
duration but its SQL sets only the end timestamp: the resulting store is
identical for durations 77 and 0, and the updated row consists of the
original fields with just `end_timestamp` filled — nothing persists a
duration. -/
theorem C8_counterexample_duration_ignored :
    Store.update_source_end
        ⟨[(1, ⟨"stream", "stream_0", 0, none, "rtmp"⟩)], 2, [], 1, []⟩ 1 100 77
      = Store.update_source_end
        ⟨[(1, ⟨"stream", "stream_0", 0, none, "rtmp"⟩)], 2, [], 1, []⟩ 1 100 0
  ∧ lookupKey (Store.update_source_end
        ⟨[(1, ⟨"stream", "stream_0", 0, none, "rtmp"⟩)], 2, [], 1, []⟩
        1 100 77).sources 1
      = some ⟨"stream", "stream_0", 0, some 100, "rtmp"⟩ :=
  ⟨rfl, rfl⟩

/-- **C8** (corrected, amended part).  Stopping a live session — whether via
`stop_stream` or the `on_publish_done` callback — marks the session `ended`,
sets the backing Source's end timestamp while leaving its other fields and
every other source untouched, and resets the deduplication baseline of that
source (the stopped processor is inactive with its baseline cleared).  The
duration is computed and passed to the store, which discards it: the
persisted state does not depend on it (last conjunct). -/
theorem C8_stop_finalizes_source (st : SystemState) (key now : Nat)
    (s : StreamSession) (proc : StreamCaptureProcessor) (sid : Nat)
    (src : SourceRow)
    (hs : lookupKey st.sessions key = some s)
    (hlive : s.status = .live)
    (hproc : s.processor = some proc)
    (hactive : proc.active = true)
    (hsid : proc.source_id = some sid)
    (hsid0 : sid ≠ 0)
    (hsrc : lookupKey st.store.sources sid = some src) :
    lookupKey (stop_stream st key now).2.sessions key
        = some { s with
            status := .ended, ended_at := some now, processor := none }
  ∧ lookupKey (on_publish_done st key now).2.sessions key
        = some { s with
            status := .ended, ended_at := some now, processor := none }
  ∧ lookupKey (stop_stream st key now).2.store.sources sid
        = some { src with end_timestamp := some now }
  ∧ lookupKey (on_publish_done st key now).2.store.sources sid
        = some { src with end_timestamp := some now }
  ∧ (∀ sid', sid' ≠ sid →
      lookupKey (stop_stream st key now).2.store.sources sid'
        = lookupKey st.store.sources sid')
  ∧ lookupKey (proc.stop_stream st.store now).1.frame_processor.last_hashes sid
        = none
  ∧ (proc.stop_stream st.store now).1.active = false
  ∧ (∀ d d', st.store.update_source_end sid now d
        = st.store.update_source_end sid now d') := by
  have hup : st.store.update_source_end sid now (now - src.start_timestamp)
      = { st.store with sources := setKey st.store.sources sid { src with end_timestamp := some now } } := by
    unfold Store.update_source_end
    rw [hsrc]
  have hps : proc.stop_stream st.store now
      = ({ proc with
            frame_processor := proc.frame_processor.reset_source sid,
            active := false, source_id := none },
         st.store.update_source_end sid now (now - src.start_timestamp)) := by
    unfold StreamCaptureProcessor.stop_stream
    rw [hsid, hactive]
    simp only
    rw [if_neg hsid0]
    unfold Store.get_source
    rw [hsrc]
  have hstop : stop_stream st key now
      = (true, { st with
          sessions := setKey st.sessions key
            { s with
              status := .ended, ended_at := some now, processor := none },
          store := (proc.stop_stream st.store now).2 }) := by
    unfold stop_stream
    rw [hs]
    simp only [hlive, hproc, if_true]
  have hdone : on_publish_done st key now
      = (true, { st with
          sessions := setKey st.sessions key
            { s with
              status := .ended, ended_at := some now, processor := none },
          store := (proc.stop_stream st.store now).2 }) := by
    unfold on_publish_done
    rw [hs]
    simp only [hproc]
  refine ⟨?_, ?_, ?_, ?_, ?_, ?_, ?_, ?_⟩
  · rw [hstop]
    exact lookupKey_setKey_self _ _ _
  · rw [hdone]
    exact lookupKey_setKey_self _ _ _
  · rw [hstop]
    simp only
    rw [hps]
    simp only
    rw [hup]
    exact lookupKey_setKey_self _ _ _
  · rw [hdone]
    simp only
    rw [hps]
    simp only
    rw [hup]
    exact lookupKey_setKey_self _ _ _
  · intro sid' hne
    rw [hstop]
    simp only
    rw [hps]
    simp only
    rw [hup]
    exact lookupKey_setKey_ne _ _ _ _ hne
  · rw [hps]
    exact lookupKey_delKey_self _ _
  · rw [hps]
  · intro d d'
    rfl

/-- A live-session fixture: processor active on source 1 with a remembered
deduplication baseline, and source 1 present in the store. -/
def fixtureProc : StreamCaptureProcessor := ⟨⟨95, [(1, [true])]⟩, true, some 1⟩

def fixtureLiveSession : StreamSession :=
  ⟨1, 3, none, some 1, some fixtureProc, .live, some 0, none, some "10.0.0.1",
   none, none, 5, 5⟩

def fixtureStore : Store :=
  ⟨[(1, ⟨"stream", "stream_0", 0, none, "rtmp"⟩)], 2, [], 1, []⟩

def fixtureState : SystemState := ⟨10, 95, [(3, fixtureLiveSession)], fixtureStore⟩

/-- Witness for C8's amended theorem at the live-session fixture. -/
theorem C8_stop_finalizes_source_witness :
    lookupKey (stop_stream fixtureState 3 100).2.sessions 3
        = some { fixtureLiveSession with
            status := .ended, ended_at := some 100, processor := none }
  ∧ lookupKey (on_publish_done fixtureState 3 100).2.sessions 3
        = some { fixtureLiveSession with
            status := .ended, ended_at := some 100, processor := none }
  ∧ lookupKey (stop_stream fixtureState 3 100).2.store.sources 1
        = some { (⟨"stream", "stream_0", 0, none, "rtmp"⟩ : SourceRow) with
                 end_timestamp := some 100 }
  ∧ lookupKey (on_publish_done fixtureState 3 100).2.store.sources 1
        = some { (⟨"stream", "stream_0", 0, none, "rtmp"⟩ : SourceRow) with
                 end_timestamp := some 100 }
  ∧ (∀ sid', sid' ≠ 1 →
      lookupKey (stop_stream fixtureState 3 100).2.store.sources sid'
        = lookupKey fixtureState.store.sources sid')
  ∧ lookupKey
      (fixtureProc.stop_stream fixtureState.store 100).1.frame_processor.last_hashes 1
        = none
  ∧ (fixtureProc.stop_stream fixtureState.store 100).1.active = false
  ∧ (∀ d d', fixtureState.store.update_source_end 1 100 d
        = fixtureState.store.update_source_end 1 100 d') :=
  C8_stop_finalizes_source fixtureState 3 100 fixtureLiveSession fixtureProc 1
    ⟨"stream", "stream_0", 0, none, "rtmp"⟩ rfl rfl rfl rfl rfl (by decide) rfl

/-- On an active processor, `capture_frame` never raises — undecodable
frames and deduplicated frames alike return normally — and the processor
stays active on the same source. -/
theorem capture_frame_ok (proc : StreamCaptureProcessor) (st : Store)
    (f : Option FrameData) (now sid : Nat)
    (hactive : proc.active = true) (hsid : proc.source_id = some sid)
    (h0 : sid ≠ 0) :
    ∃ proc' store', proc.capture_frame st f now = Except.ok (proc', store')
      ∧ proc'.active = true ∧ proc'.source_id = some sid := by
  unfold StreamCaptureProcessor.capture_frame
  rw [hsid, hactive]
  simp only
  rw [if_neg h0]
  cases f with
  | none => exact ⟨proc, st, rfl, hactive, hsid⟩
  | some fd =>
      simp only
      by_cases hss :
          (proc.frame_processor.should_store_frame sid fd.phash).1.1 = true
      · rw [if_pos hss]
        exact ⟨_, _, rfl, rfl, rfl⟩
      · rw [if_neg hss]
        cases hfind : st.find_similar_frame sid
            (proc.frame_processor.should_store_frame sid fd.phash).1.2.1 with
        | some fid =>
            simp only [hfind]
            exact ⟨_, _, rfl, rfl, rfl⟩
        | none =>
            simp only [hfind]
            exact ⟨_, _, rfl, rfl, rfl⟩

/-- One completed `ingest_frame` call on a live session with an active
processor: it returns ok, bumps both counters by exactly one, and leaves the
session live with its processor still active on the same source — whatever
the frame contained. -/
theorem ingest_frame_completes (st : SystemState) (key : Nat)
    (f : Option FrameData) (now : Nat) (s : StreamSession)
    (proc : StreamCaptureProcessor) (sid : Nat)
    (hs : lookupKey st.sessions key = some s)
    (hlive : s.status = .live)
    (hproc : s.processor = some proc)
    (hactive : proc.active = true)
    (hsid : proc.source_id = some sid)
    (h0 : sid ≠ 0) :
    (ingest_frame st key f now).1 = true
  ∧ ∃ s' proc', lookupKey (ingest_frame st key f now).2.sessions key = some s'
      ∧ s'.frames_stored = s.frames_stored + 1
      ∧ s'.frames_received = s.frames_received + 1
      ∧ s'.status = .live
      ∧ s'.processor = some proc'
      ∧ proc'.active = true ∧ proc'.source_id = some sid := by
  obtain ⟨proc', store', hcap, hact', hsid'⟩ :=
    capture_frame_ok proc st.store f now sid hactive hsid h0
  have hnl : ¬ s.status ≠ SessionStatus.live := by
    rw [hlive]
    simp
  unfold ingest_frame
  rw [hs]
  simp only [hnl, if_false, hproc, hcap]
  constructor
  · trivial
  · refine ⟨_, proc', lookupKey_setKey_self _ _ _, ?_, ?_, ?_, ?_, hact', hsid'⟩
    all_goals
      cases hw : s.width <;> cases f <;> simp [hlive]

/-- The stream of completed ingest calls for one key. -/
def ingestAll (st : SystemState) (key : Nat) :
    List (Option FrameData × Nat) → SystemState
  | [] => st
  | fn :: rest => ingestAll (ingest_frame st key fn.1 fn.2).2 key rest

theorem ingestAll_counts (key sid : Nat) :
    ∀ (inputs : List (Option FrameData × Nat)) (st : SystemState)
      (s : StreamSession) (proc : StreamCaptureProcessor),
      lookupKey st.sessions key = some s → s.status = .live →
      s.processor = some proc → proc.active = true →
      proc.source_id = some sid → sid ≠ 0 →
      ∃ s' proc', lookupKey (ingestAll st key inputs).sessions key = some s'
        ∧ s'.frames_stored = s.frames_stored + inputs.length
        ∧ s'.frames_received = s.frames_received + inputs.length
        ∧ s'.status = .live ∧ s'.processor = some proc'
        ∧ proc'.active = true ∧ proc'.source_id = some sid := by
  intro inputs
  induction inputs with
  | nil =>
      intro st s proc hs hlive hproc hactive hsid h0
      exact ⟨s, proc, hs, by simp, by simp, hlive, hproc, hactive, hsid⟩
  | cons fn rest ih =>
      intro st s proc hs hlive hproc hactive hsid h0
      obtain ⟨_, s₁, proc₁, hs₁, hst₁, hrc₁, hlv₁, hpr₁, hac₁, hsd₁⟩ :=
        ingest_frame_completes st key fn.1 fn.2 s proc sid hs hlive hproc
          hactive hsid h0
      obtain ⟨s', proc', hs', hst', hrc', hlv', hpr', hac', hsd'⟩ :=
        ih (ingest_frame st key fn.1 fn.2).2 s₁ proc₁ hs₁ hlv₁ hpr₁ hac₁ hsd₁ h0
      refine ⟨s', proc', hs', ?_, ?_, hlv', hpr', hac', hsd'⟩
      · rw [hst', hst₁]
        simp [List.length_cons]
        omega
      · rw [hrc', hrc₁]
        simp [List.length_cons]
        omega

/-- **C10** (confirmed).  On a live session with an active processor, every
`ingest_frame` call that completes without an internal exception returns ok
and increments `frames_stored` by exactly one — for every frame payload,
duplicates and undecodable bytes included; an undecodable frame additionally
leaves the store untouched while still being counted.  Hence after any
sequence of completed calls, `frames_stored` has grown by the number of
calls, not by the number of frames persisted. -/
theorem C10_frames_stored_counts_calls (st : SystemState) (key : Nat)
    (s : StreamSession) (proc : StreamCaptureProcessor) (sid : Nat)
    (hs : lookupKey st.sessions key = some s)
    (hlive : s.status = .live)
    (hproc : s.processor = some proc)
    (hactive : proc.active = true)
    (hsid : proc.source_id = some sid)
    (h0 : sid ≠ 0) :
    (∀ f now, (ingest_frame st key f now).1 = true
      ∧ ∃ s', lookupKey (ingest_frame st key f now).2.sessions key = some s'
          ∧ s'.frames_stored = s.frames_stored + 1)
  ∧ (∀ now, (ingest_frame st key none now).2.store = st.store)
  ∧ (∀ inputs : List (Option FrameData × Nat),
      ∃ s', lookupKey (ingestAll st key inputs).sessions key = some s'
        ∧ s'.frames_stored = s.frames_stored + inputs.length) := by
  refine ⟨?_, ?_, ?_⟩
  · intro f now
    obtain ⟨hok, s', _, hs', hst', _⟩ :=
      ingest_frame_completes st key f now s proc sid hs hlive hproc hactive
        hsid h0
    exact ⟨hok, s', hs', hst'⟩
  · intro now
    have hnl : ¬ s.status ≠ SessionStatus.live := by
      rw [hlive]
      simp
    have hcap : proc.capture_frame st.store none now = Except.ok (proc, st.store) := by
      unfold StreamCaptureProcessor.capture_frame
      rw [hsid, hactive]
      simp only
      rw [if_neg h0]
    unfold ingest_frame
    rw [hs]
    simp only [hnl, if_false, hproc, hcap]
  · intro inputs
    obtain ⟨s', _, hs', hst', _⟩ :=
      ingestAll_counts key sid inputs st s proc hs hlive hproc hactive hsid h0
    exact ⟨s', hs', hst'⟩

/-- Witness for C10 at the live-session fixture: two undecodable frames are
both counted as stored. -/
theorem C10_frames_stored_counts_calls_witness :
    (∀ f now, (ingest_frame fixtureState 3 f now).1 = true
      ∧ ∃ s', lookupKey (ingest_frame fixtureState 3 f now).2.sessions 3 = some s'
          ∧ s'.frames_stored = fixtureLiveSession.frames_stored + 1)
  ∧ (∀ now, (ingest_frame fixtureState 3 none now).2.store = fixtureState.store)
  ∧ (∀ inputs : List (Option FrameData × Nat),
      ∃ s', lookupKey (ingestAll fixtureState 3 inputs).sessions 3 = some s'
        ∧ s'.frames_stored = fixtureLiveSession.frames_stored + inputs.length) :=
  C10_frames_stored_counts_calls fixtureState 3 fixtureLiveSession fixtureProc 1
    rfl rfl rfl rfl rfl (by decide)

/-- The transition set asserted by the claim: `waiting→live`, `live→ended`,
`ended→live`, `waiting/live→error`, or no change. -/
def claimedTransition (a b : SessionStatus) : Prop :=
  a = b ∨ (a = .waiting ∧ b = .live) ∨ (a = .live ∧ b = .ended)
    ∨ (a = .ended ∧ b = .live) ∨ (a = .waiting ∧ b = .error)
    ∨ (a = .live ∧ b = .error)

/-- The transitions the code actually makes: additionally any status can
jump to `ended` (`on_publish_done`/`stop_stream` never check the current
status, so `waiting→ended` and `error→ended` occur) and a failed publish
start moves `waiting` or `ended` to `error`; `live→error` never occurs. -/
def amendedTransition (a b : SessionStatus) : Prop :=
  a = b ∨ b = .ended
    ∨ ((a = .waiting ∨ a = .ended) ∧ (b = .live ∨ b = .error))

/-- A `waiting` session fixture. -/
def waitingFixture : StreamSession :=
  ⟨1, 3, none, none, none, .waiting, none, none, none, none, none, 0, 0⟩

/-- **C2** (counterexample).  An `on_publish_done` callback for a session
still in `waiting` moves it straight to `ended` — a transition outside the
claimed set (`waiting→ended` is not `waiting→live`, `live→ended`,
`ended→live`, nor `waiting/live→error`). -/
theorem C2_counterexample_waiting_to_ended :
    lookupKey (step ⟨10, 95, [(3, waitingFixture)], ⟨[], 1, [], 1, []⟩⟩
        (Op.onPublishDone 3 100)).2.sessions 3
      = some { waitingFixture with
          status := .ended, ended_at := some 100, processor := none }
  ∧ waitingFixture.status = .waiting
  ∧ ¬ claimedTransition .waiting .ended :=
  ⟨rfl, rfl, by simp [claimedTransition]⟩

/-- **C2** (corrected, amended part).  Under any operation of the session
manager (with create-session keys fresh, as UUIDs are), a session present
before and after the step only makes transitions of the amended set: no
change, anything→`ended`, `waiting/ended→live`, or `waiting/ended→error`.
Moreover `ingest_frame` on a session that is not `live` returns rejected
and leaves the entire state — store included — unchanged. -/
theorem C2_session_status_transitions (st : SystemState) (op : Op) (key : Nat)
    (s s' : StreamSession)
    (hfresh : ∀ sid k name, op = Op.createSession sid k name →
      lookupKey st.sessions k = none)
    (hs : lookupKey st.sessions key = some s)
    (hs' : lookupKey (step st op).2.sessions key = some s') :
    amendedTransition s.status s'.status
  ∧ (∀ (k : Nat) (s₀ : StreamSession) (f : Option FrameData) (now : Nat),
      lookupKey st.sessions k = some s₀ → s₀.status ≠ .live →
      ingest_frame st k f now = (false, st)) := by
  constructor
  case right =>
      intro k s₀ f now hk hnl
      unfold ingest_frame
      rw [hk]
      simp only
      rw [if_pos hnl]
  case left =>
  cases op with
  | createSession sid k name =>
      simp only [step] at hs'
      cases hres : create_session st sid k name with
      | error e =>
          rw [hres] at hs'
          simp only at hs'
          rw [hs] at hs'
          injection hs' with h
          exact Or.inl (by rw [h])
      | ok r =>
          rw [hres] at hs'
          simp only at hs'
          have h2 : r.2.sessions = setKey st.sessions k r.1 := by
            unfold create_session at hres
            by_cases hcap : st.sessions.length ≥ st.max_streams
            · rw [if_pos hcap] at hres
              cases hres
            · rw [if_neg hcap] at hres
              cases hres
              rfl
          rw [h2] at hs'
          by_cases hkk : key = k
          · subst hkk
            rw [hfresh sid key name rfl] at hs
            cases hs
          · rw [lookupKey_setKey_ne _ _ _ _ hkk, hs] at hs'
            injection hs' with h
            exact Or.inl (by rw [h])
  | onPublish k addr ok now =>
      simp only [step] at hs'
      unfold on_publish at hs'
      cases hsess : lookupKey st.sessions k with
      | none =>
          rw [hsess] at hs'
          simp only at hs'
          rw [hs] at hs'
          injection hs' with h
          exact Or.inl (by rw [h])
      | some sess =>
          rw [hsess] at hs'
          simp only at hs'
          by_cases hstat : sess.status ≠ .waiting ∧ sess.status ≠ .ended
          · rw [if_pos hstat] at hs'
            simp only at hs'
            rw [hs] at hs'
            injection hs' with h
            exact Or.inl (by rw [h])
          · rw [if_neg hstat] at hs'
            have hwe : sess.status = .waiting ∨ sess.status = .ended := by
              by_cases hw : sess.status = .waiting
              · exact Or.inl hw
              · by_cases he : sess.status = .ended
                · exact Or.inr he
                · exact absurd ⟨hw, he⟩ hstat
            cases ok with
            | true =>
                simp only [if_true] at hs'
                by_cases hkk : key = k
                · subst hkk
                  rw [lookupKey_setKey_self] at hs'
                  injection hs' with h
                  rw [hs] at hsess
                  injection hsess with hss
                  refine Or.inr (Or.inr ⟨?_, Or.inl (by rw [← h])⟩)
                  rw [hss]
                  exact hwe
                · rw [lookupKey_setKey_ne _ _ _ _ hkk, hs] at hs'
                  injection hs' with h
                  exact Or.inl (by rw [h])
            | false =>
                simp only [Bool.false_eq_true, if_false] at hs'
                by_cases hkk : key = k
                · subst hkk
                  rw [lookupKey_setKey_self] at hs'
                  injection hs' with h
                  rw [hs] at hsess
                  injection hsess with hss
                  refine Or.inr (Or.inr ⟨?_, Or.inr (by rw [← h])⟩)
                  rw [hss]
                  exact hwe
                · rw [lookupKey_setKey_ne _ _ _ _ hkk, hs] at hs'
                  injection hs' with h
                  exact Or.inl (by rw [h])
  | onPublishDone k now =>
      simp only [step] at hs'
      unfold on_publish_done at hs'
      cases hsess : lookupKey st.sessions k with
      | none =>
          rw [hsess] at hs'
          simp only at hs'
          rw [hs] at hs'
          injection hs' with h
          exact Or.inl (by rw [h])
      | some sess =>
          rw [hsess] at hs'
          simp only at hs'
          by_cases hkk : key = k
          · subst hkk
            rw [lookupKey_setKey_self] at hs'
            injection hs' with h
            exact Or.inr (Or.inl (by rw [← h]))
          · rw [lookupKey_setKey_ne _ _ _ _ hkk, hs] at hs'
            injection hs' with h
            exact Or.inl (by rw [h])
  | ingestFrame k f now =>
      simp only [step] at hs'
      unfold ingest_frame at hs'
      cases hsess : lookupKey st.sessions k with
      | none =>
          rw [hsess] at hs'
          simp only at hs'
          rw [hs] at hs'
          injection hs' with h
          exact Or.inl (by rw [h])
      | some sess =>
          rw [hsess] at hs'
          simp only at hs'
          by_cases hnl : sess.status ≠ .live
          · rw [if_pos hnl] at hs'
            simp only at hs'
            rw [hs] at hs'
            injection hs' with h
            exact Or.inl (by rw [h])
          · rw [if_neg hnl] at hs'
            cases hproc2 : sess.processor with
            | none =>
                simp only [hproc2] at hs'
                rw [hs] at hs'
                injection hs' with h
                exact Or.inl (by rw [h])
            | some proc =>
                simp only [hproc2] at hs'
                cases hcap : proc.capture_frame st.store f now with
                | error e =>
                    simp only [hcap] at hs'
                    by_cases hkk : key = k
                    · subst hkk
                      rw [lookupKey_setKey_self] at hs'
                      injection hs' with h
                      rw [hs] at hsess
                      injection hsess with hss
                      refine Or.inl ?_
                      rw [hss, ← h]
                    · rw [lookupKey_setKey_ne _ _ _ _ hkk, hs] at hs'
                      injection hs' with h
                      exact Or.inl (by rw [h])
                | ok r =>
                    simp only [hcap] at hs'
                    by_cases hkk : key = k
                    · subst hkk
                      rw [lookupKey_setKey_self] at hs'
                      injection hs' with h
                      rw [hs] at hsess
                      injection hsess with hss
                      refine Or.inl ?_
                      rw [hss, ← h]
                      split <;> rfl
                    · rw [lookupKey_setKey_ne _ _ _ _ hkk, hs] at hs'
                      injection hs' with h
                      exact Or.inl (by rw [h])
  | stopStream k now =>
      simp only [step] at hs'
      unfold stop_stream at hs'
      cases hsess : lookupKey st.sessions k with
      | none =>
          rw [hsess] at hs'
          simp only at hs'
          rw [hs] at hs'
          injection hs' with h
          exact Or.inl (by rw [h])
      | some sess =>
          rw [hsess] at hs'
          simp only at hs'
          by_cases hlv : sess.status = .live
          · rw [if_pos hlv] at hs'
            simp only at hs'
            by_cases hkk : key = k
            · subst hkk
              rw [lookupKey_setKey_self] at hs'
              injection hs' with h
              exact Or.inr (Or.inl (by rw [← h]))
            · rw [lookupKey_setKey_ne _ _ _ _ hkk, hs] at hs'
              injection hs' with h
              exact Or.inl (by rw [h])
          · rw [if_neg hlv] at hs'
            simp only at hs'
            rw [hs] at hs'
            injection hs' with h
            exact Or.inl (by rw [h])
  | deleteSession k now =>
      simp only [step] at hs'
      unfold delete_session at hs'
      cases hsess : lookupKey st.sessions k with
      | none =>
          rw [hsess] at hs'
          simp only at hs'
          rw [hs] at hs'
          injection hs' with h
          exact Or.inl (by rw [h])
      | some sess =>
          rw [hsess] at hs'
          simp only at hs'
          by_cases hkk : key = k
          · subst hkk
            rw [lookupKey_delKey_self] at hs'
            cases hs'
          · rw [lookupKey_delKey_ne _ _ _ hkk] at hs'
            unfold stop_stream at hs'
            rw [hsess] at hs'
            simp only at hs'
            by_cases hlv : sess.status = .live
            · rw [if_pos hlv] at hs'
              simp only at hs'
              rw [lookupKey_setKey_ne _ _ _ _ hkk, hs] at hs'
              injection hs' with h
              exact Or.inl (by rw [h])
            · rw [if_neg hlv] at hs'
              simp only at hs'
              rw [hs] at hs'
              injection hs' with h
              exact Or.inl (by rw [h])

/-- Witness for C2's amended theorem: an `on_publish_done` step at the
live-session fixture (a `live→ended` transition). -/
theorem C2_session_status_transitions_witness :
    amendedTransition fixtureLiveSession.status
      ({ fixtureLiveSession with
          status := .ended, ended_at := some 100,
          processor := none } : StreamSession).status
  ∧ (∀ (k : Nat) (s₀ : StreamSession) (f : Option FrameData) (now : Nat),
      lookupKey fixtureState.sessions k = some s₀ → s₀.status ≠ .live →
      ingest_frame fixtureState k f now = (false, fixtureState)) :=
  C2_session_status_transitions fixtureState (Op.onPublishDone 3 100) 3
    fixtureLiveSession _ (fun _ _ _ h => Op.noConfusion h) rfl rfl

/-- Witness for C5: instantiated at a 10-second 16 kHz stream with 5-second
chunks and 1-second overlap. -/
theorem C5_audio_chunk_spans_witness :
    (0 : Nat) < 16000 ∧ (16000 : Nat) < 80000 ∧
    get_audio_chunks 160000 80000 16000
      = [⟨0, 0, 80000, true, none, some 64000⟩,
         ⟨1, 64000, 144000, true, some 64000, some 128000⟩,
         ⟨2, 128000, 160000, true, some 128000, none⟩] :=
  ⟨by decide, by decide,
    (C5_audio_chunk_spans 160000 80000 16000 (by decide) (by decide)).2.2.2.2⟩

end Mem
